import Mathlib

/-!
# debugprobe: the USB endpoint handler (`src/tusb_edpt_handler.c`)

A shallow embedding of the dual ring-buffer transport between the USB stack
and the CMSIS-DAP command interpreter, and of the worker loop `dap_thread`.

Conventions of the embedding.

* `uint32_t` values (the cursors `wptr`, `rptr`, the scan cursor `n`,
  `_resp_len`) are natural numbers below `2^32`; every increment is written
  with an explicit `% 4294967296` (`u32`).  `(uint16_t)x` is `u16 x`.
* A C byte array is a total function from offsets to bytes; only the offsets
  the source touches are ever read or written.  `data[i][j]` is `data i j`.
* The constants of the headers `tusb_edpt_handler.h`, `DAP.h`, `DAP_config.h`
  and of the USB stack are fields of `Config`, and the interpreter
  `DAP_ExecuteCommand` is a field of `Config` as well: a function of the
  requests it has seen so far and of the current request.  The argument
  `rhport` is passed through unchanged everywhere and is left out.
* The USB stack is represented by what the handler can observe of it: the
  queue of armed transfers per direction (`out_xfers`, `in_xfers`), the log of
  all `usbd_edpt_xfer` / `usbd_edpt_open` calls, and the number of
  `vTaskResume` calls.
* One execution of `dap_edpt_xfer_cb` and one pass of the worker through the
  body of its inner `while` loop are atomic steps.
-/

namespace Debugprobe

/-- Truncation to `uint32_t`. -/
def u32 (x : Nat) : Nat := x % 4294967296

/-- Truncation to `uint16_t`. -/
def u16 (x : Nat) : Nat := x % 65536

/-- Compile-time constants and external collaborators of the handler. -/
structure Config where
  DAP_PACKET_COUNT : Nat
  DAP_PACKET_SIZE : Nat
  ID_DAP_QueueCommands : Nat
  ID_DAP_ExecuteCommands : Nat
  TUSB_CLASS_VENDOR_SPECIFIC : Nat
  DAP_INTERFACE_SUBCLASS : Nat
  DAP_INTERFACE_PROTOCOL : Nat
  sizeof_tusb_desc_interface_t : Nat
  sizeof_tusb_desc_endpoint_t : Nat
  /-- The interpreter: given the requests of all earlier calls and the current
  request (the `DAP_PACKET_SIZE` bytes of `DAPRequestBuffer`), the new contents
  of `DAPResponseBuffer` and the returned `uint32_t`. -/
  DAP_ExecuteCommand : List (List Nat) → List Nat → (Nat → Nat) × Nat

/-- The ring buffer type `buffer_t`. -/
structure buffer_t where
  data : Nat → Nat → Nat
  wptr : Nat
  rptr : Nat
  wasEmpty : Bool
  wasFull : Bool

/-- Which of the two rings a slot pointer points into. -/
inductive Ring where
  | request
  | response
deriving DecidableEq, Repr

/-- One call `usbd_edpt_xfer(rhport, ep_addr, &ring.data[slot][0], len)`. -/
structure Xfer where
  ep_addr : Nat
  ring : Ring
  slot : Nat
  len : Nat
deriving DecidableEq, Repr

/-- Where the worker `dap_thread` stands when it is not running: at the test of
the inner `while` (line 208; this covers the suspension of line 285), or
suspended inside the admission scan (line 230) with scan cursor `n`. -/
inductive Pc where
  | loop
  | wait (n : Nat)
deriving DecidableEq, Repr

/-- The module-level variables of the handler, the observable part of the USB
stack, and the log of interpreter calls. -/
structure State where
  itf_num : Nat
  _out_ep_addr : Nat
  _in_ep_addr : Nat
  USBRequestBuffer : buffer_t
  USBResponseBuffer : buffer_t
  DAPRequestBuffer : Nat → Nat
  DAPResponseBuffer : Nat → Nat
  _resp_len : Nat
  /-- Worker control point. -/
  pc : Pc
  /-- Armed, not yet completed transfers on OUT endpoints (host to device). -/
  out_xfers : List Xfer
  /-- Armed, not yet completed transfers on IN endpoints (device to host). -/
  in_xfers : List Xfer
  /-- Every `usbd_edpt_xfer` call so far, oldest first. -/
  xfer_log : List Xfer
  /-- Every `usbd_edpt_open` call so far (endpoint addresses), oldest first. -/
  opened : List Nat
  /-- Number of `vTaskResume(dap_taskhandle)` calls so far. -/
  resumes : Nat
  /-- Every `DAP_ExecuteCommand` call so far: the request handed over and the
  value returned. -/
  calls : List (List Nat × Nat)

/-- The macro `WR_IDX`. -/
def WR_IDX (cfg : Config) (x : buffer_t) : Nat := x.wptr % cfg.DAP_PACKET_COUNT

/-- The macro `RD_IDX`. -/
def RD_IDX (cfg : Config) (x : buffer_t) : Nat := x.rptr % cfg.DAP_PACKET_COUNT

/-- Source lines 30-33. -/
def buffer_full (cfg : Config) (buffer : buffer_t) : Bool :=
  u32 (buffer.wptr + 1) % cfg.DAP_PACKET_COUNT == buffer.rptr

/-- Source lines 35-38. -/
def buffer_empty (buffer : buffer_t) : Bool :=
  buffer.wptr == buffer.rptr

/-- The value `TUSB_DIR_OUT` of the USB stack. -/
def TUSB_DIR_OUT : Nat := 0

/-- The value `TUSB_DIR_IN` of the USB stack. -/
def TUSB_DIR_IN : Nat := 1

/-- The helper `tu_edpt_dir` of the USB stack: bit 7 of the `uint8_t` endpoint
address selects the direction. -/
def tu_edpt_dir (ep_addr : Nat) : Nat :=
  if 128 ≤ ep_addr % 256 then TUSB_DIR_IN else TUSB_DIR_OUT

/-- `memcpy(dst, src, n)` on byte arrays. -/
def memcpy (dst src : Nat → Nat) (n : Nat) : Nat → Nat :=
  fun j => if j < n then src j else dst j

/-- The first `n` bytes of an array, as a list. -/
def bytes (buf : Nat → Nat) (n : Nat) : List Nat := (List.range n).map buf

/-- The stack primitive `usbd_edpt_xfer`: the transfer is logged and queued on
the endpoint's direction. -/
def usbd_edpt_xfer (s : State) (ep_addr : Nat) (ring : Ring) (slot : Nat) (len : Nat) : State :=
  let x : Xfer := ⟨ep_addr, ring, slot, len⟩
  if tu_edpt_dir ep_addr = TUSB_DIR_IN then
    { s with xfer_log := s.xfer_log ++ [x], in_xfers := s.in_xfers ++ [x] }
  else
    { s with xfer_log := s.xfer_log ++ [x], out_xfers := s.out_xfers ++ [x] }

/-- The stack primitive `usbd_edpt_open`. -/
def usbd_edpt_open (s : State) (ep_addr : Nat) : State :=
  { s with opened := s.opened ++ [ep_addr] }

/-- The scheduler primitive `vTaskResume(dap_taskhandle)`. -/
def vTaskResume (s : State) : State :=
  { s with resumes := s.resumes + 1 }

/-- Source lines 44-47. -/
def dap_edpt_reset (s : State) : State :=
  { s with itf_num := 0 }

/-- Source lines 133-137: no class-specific control request is claimed. -/
def dap_edpt_control_xfer_cb (_stage : Nat) : Bool := false

/-- The fields of `tusb_desc_interface_t` the handler reads. -/
structure tusb_desc_interface_t where
  bInterfaceNumber : Nat
  bNumEndpoints : Nat
  bInterfaceClass : Nat
  bInterfaceSubClass : Nat
  bInterfaceProtocol : Nat

/-- Source lines 80-131.  `edpt i` is `bEndpointAddress` of the `i`-th endpoint
descriptor that follows the interface descriptor in memory. -/
def dap_edpt_open (cfg : Config) (s : State) (itf_desc : tusb_desc_interface_t)
    (edpt : Nat → Nat) (max_len : Nat) : Nat × State :=
  if ¬ (cfg.TUSB_CLASS_VENDOR_SPECIFIC = itf_desc.bInterfaceClass ∧
        cfg.DAP_INTERFACE_SUBCLASS = itf_desc.bInterfaceSubClass ∧
        cfg.DAP_INTERFACE_PROTOCOL = itf_desc.bInterfaceProtocol) then (0, s)
  else
    let s1 : State :=
      { s with
        USBResponseBuffer :=
          { s.USBResponseBuffer with wptr := 0, rptr := 0, wasFull := false, wasEmpty := true },
        USBRequestBuffer :=
          { s.USBRequestBuffer with wptr := 0, rptr := 0, wasFull := false, wasEmpty := true } }
    let drv_len : Nat :=
      u16 (cfg.sizeof_tusb_desc_interface_t +
        itf_desc.bNumEndpoints * cfg.sizeof_tusb_desc_endpoint_t)
    if ¬ (max_len ≥ drv_len) then (0, s1)
    else
      let s2 : State := { s1 with itf_num := itf_desc.bInterfaceNumber }
      let ep_addr := edpt 0
      let s3 : State := { s2 with _out_ep_addr := ep_addr }
      let s4 := usbd_edpt_open s3 ep_addr
      let s5 := usbd_edpt_xfer s4 ep_addr Ring.request (WR_IDX cfg s4.USBRequestBuffer)
        cfg.DAP_PACKET_SIZE
      let ep_addr := edpt 1
      let s6 : State := { s5 with _in_ep_addr := ep_addr }
      let s7 := usbd_edpt_open s6 ep_addr
      (drv_len, s7)

/-- Source lines 140-198. -/
def dap_edpt_xfer_cb (cfg : Config) (s : State) (ep_addr : Nat) (xferred_bytes : Nat) :
    Bool × State :=
  let ep_dir := tu_edpt_dir ep_addr
  if ep_dir = TUSB_DIR_IN then
    if xferred_bytes > cfg.DAP_PACKET_SIZE then (false, s)
    else
      let s1 : State :=
        { s with USBResponseBuffer :=
            { s.USBResponseBuffer with rptr := u32 (s.USBResponseBuffer.rptr + 1) } }
      let s2 : State :=
        if ¬ s1.USBResponseBuffer.wasEmpty then
          let a := usbd_edpt_xfer s1 ep_addr Ring.response (RD_IDX cfg s1.USBResponseBuffer)
            (u16 s1._resp_len)
          { a with USBResponseBuffer :=
              { a.USBResponseBuffer with
                wasEmpty := (u32 (a.USBResponseBuffer.rptr + 1) == a.USBResponseBuffer.wptr) } }
        else s1
      (true, vTaskResume s2)
  else if ep_dir = TUSB_DIR_OUT then
    if xferred_bytes > cfg.DAP_PACKET_SIZE then (false, s)
    else
      let s2 : State :=
        if ¬ buffer_full cfg s.USBRequestBuffer then
          let a : State :=
            { s with USBRequestBuffer :=
                { s.USBRequestBuffer with wptr := u32 (s.USBRequestBuffer.wptr + 1) } }
          let b := usbd_edpt_xfer a ep_addr Ring.request (WR_IDX cfg a.USBRequestBuffer)
            cfg.DAP_PACKET_SIZE
          { b with USBRequestBuffer := { b.USBRequestBuffer with wasFull := false } }
        else
          { s with USBRequestBuffer := { s.USBRequestBuffer with wasFull := true } }
      (true, vTaskResume s2)
  else (false, s)

/-- The admission scan of `dap_thread`, source lines 214-232, entered at the test
of line 226 with scan cursor `n` (on entry from line 213 that test is false,
because the inner `while` was entered with `rptr != wptr`).  The result is the
rewritten request storage and `some n` when the worker suspends at line 230
with scan cursor `n`, `none` when the scan has left the loop of line 214.
The first argument bounds the number of loop iterations; the worker passes the
distance from `n` to `wptr`, which the loop cannot exceed. -/
def admission_scan (cfg : Config) (wptr : Nat) :
    Nat → Nat → (Nat → Nat → Nat) → (Nat → Nat → Nat) × Option Nat
  | 0, n, data => (data, some n)
  | fuel + 1, n, data =>
    if n = wptr then (data, some n)
    else if data (n % cfg.DAP_PACKET_COUNT) 0 = cfg.ID_DAP_QueueCommands then
      admission_scan cfg wptr fuel (u32 (n + 1))
        (Function.update data (n % cfg.DAP_PACKET_COUNT)
          (Function.update (data (n % cfg.DAP_PACKET_COUNT)) 0 cfg.ID_DAP_ExecuteCommands))
    else (data, none)

/-- Source lines 246-256: re-arming the inbound endpoint after the out callback
found the ring full. -/
def rearm_request (cfg : Config) (s : State) : State :=
  if s.USBRequestBuffer.wasFull then
    let a : State :=
      { s with USBRequestBuffer :=
          { s.USBRequestBuffer with wptr := u32 (s.USBRequestBuffer.wptr + 1) } }
    let b := usbd_edpt_xfer a a._out_ep_addr Ring.request (WR_IDX cfg a.USBRequestBuffer)
      cfg.DAP_PACKET_SIZE
    { b with USBRequestBuffer := { b.USBRequestBuffer with wasFull := false } }
  else s

/-- Source lines 265-281: publication of the response in `DAPResponseBuffer`. -/
def publish_response (cfg : Config) (s : State) : State :=
  let is_buffer_empty := buffer_empty s.USBResponseBuffer
  let s1 : State :=
    { s with USBResponseBuffer :=
        { s.USBResponseBuffer with
          data := Function.update s.USBResponseBuffer.data (WR_IDX cfg s.USBResponseBuffer)
            (memcpy (s.USBResponseBuffer.data (WR_IDX cfg s.USBResponseBuffer))
              s.DAPResponseBuffer (u16 s._resp_len)) } }
  let s2 : State :=
    { s1 with USBResponseBuffer :=
        { s1.USBResponseBuffer with wptr := u32 (s1.USBResponseBuffer.wptr + 1) } }
  if is_buffer_empty then
    usbd_edpt_xfer s2 s2._in_ep_addr Ring.response (RD_IDX cfg s2.USBResponseBuffer)
      (u16 s2._resp_len)
  else
    { s2 with USBResponseBuffer := { s2.USBResponseBuffer with wasEmpty := false } }

/-- Source line 258: the interpreter call, with its request and result logged. -/
def execute_command (cfg : Config) (s : State) : State :=
  let request := bytes s.DAPRequestBuffer cfg.DAP_PACKET_SIZE
  let r := cfg.DAP_ExecuteCommand (s.calls.map Prod.fst) request
  { s with DAPResponseBuffer := r.1, _resp_len := u32 r.2,
           calls := s.calls ++ [(request, u32 r.2)] }

/-- Source lines 235-281: the part of the inner loop body after the admission
scan. -/
def drain_packet (cfg : Config) (s : State) : State :=
  let s1 : State :=
    { s with DAPRequestBuffer :=
        (memcpy s.DAPRequestBuffer (s.USBRequestBuffer.data (RD_IDX cfg s.USBRequestBuffer))
          cfg.DAP_PACKET_SIZE) }
  let s2 : State :=
    { s1 with USBRequestBuffer :=
        { s1.USBRequestBuffer with rptr := u32 (s1.USBRequestBuffer.rptr + 1) } }
  publish_response cfg (execute_command cfg (rearm_request cfg s2))

/-- The worker is suspended and a resume would only suspend it again: at line
285 with the request ring drained, or at line 230 with the scan cursor still at
the write cursor. -/
def worker_blocked (s : State) : Bool :=
  match s.pc with
  | Pc.loop => s.USBRequestBuffer.rptr == s.USBRequestBuffer.wptr
  | Pc.wait n => n == s.USBRequestBuffer.wptr

/-- The scan cursor `n` with which the worker enters the admission scan: `rptr`
on entry from line 213, the saved cursor when it resumes at line 230. -/
def scan_start (s : State) : Nat :=
  match s.pc with
  | Pc.loop => s.USBRequestBuffer.rptr
  | Pc.wait n => n

/-- One pass of `dap_thread` from its control point: either it is blocked (no
effect), or it runs the admission scan and then suspends inside the scan
(line 230) or completes the loop body (lines 235-281) and is back at line
208. -/
def worker_iter (cfg : Config) (s : State) : State :=
  if worker_blocked s then s
  else
    let n : Nat := scan_start s
    let r := admission_scan cfg s.USBRequestBuffer.wptr
      (u32 (s.USBRequestBuffer.wptr + 4294967296 - n)) n s.USBRequestBuffer.data
    let s1 : State := { s with USBRequestBuffer := { s.USBRequestBuffer with data := r.1 } }
    match r.2 with
    | some m => { s1 with pc := Pc.wait m }
    | none => drain_packet cfg { s1 with pc := Pc.loop }

/-- The worker runs until it is blocked; the first argument bounds the number
of passes. -/
def worker_run (cfg : Config) : Nat → State → State
  | 0, s => s
  | fuel + 1, s => if worker_blocked s then s else worker_run cfg fuel (worker_iter cfg s)

/-- What the USB hardware does to the armed buffer of a completed OUT
transfer: the received bytes overwrite its beginning. -/
def usb_receive (slot : Nat → Nat) (pkt : List Nat) : Nat → Nat :=
  fun j => if j < pkt.length then pkt.getD j 0 else slot j

/-- Storing received bytes through the slot pointer of a transfer. -/
def write_slot (s : State) (x : Xfer) (pkt : List Nat) : State :=
  match x.ring with
  | Ring.request =>
    { s with USBRequestBuffer :=
        { s.USBRequestBuffer with
          data := Function.update s.USBRequestBuffer.data x.slot
            (usb_receive (s.USBRequestBuffer.data x.slot) pkt) } }
  | Ring.response =>
    { s with USBResponseBuffer :=
        { s.USBResponseBuffer with
          data := Function.update s.USBResponseBuffer.data x.slot
            (usb_receive (s.USBResponseBuffer.data x.slot) pkt) } }

/-- The steps of the system. -/
inductive Event where
  /-- The oldest armed OUT transfer completes, having received `pkt`. -/
  | out_done (pkt : List Nat)
  /-- The oldest armed IN transfer completes, all its bytes sent. -/
  | in_done
  /-- The worker task is scheduled for one pass. -/
  | worker

/-- One step; `none` when the step is not enabled (no transfer is armed in that
direction, or more bytes than were armed for). -/
def step (cfg : Config) (s : State) : Event → Option State
  | Event.out_done pkt =>
    match s.out_xfers with
    | [] => none
    | x :: rest =>
      if pkt.length ≤ x.len then
        some (dap_edpt_xfer_cb cfg (write_slot { s with out_xfers := rest } x pkt)
          x.ep_addr pkt.length).2
      else none
  | Event.in_done =>
    match s.in_xfers with
    | [] => none
    | x :: rest =>
      some (dap_edpt_xfer_cb cfg { s with in_xfers := rest } x.ep_addr x.len).2
  | Event.worker => some (worker_iter cfg s)

/-- A finite sequence of steps. -/
def run (cfg : Config) : State → List Event → Option State
  | s, [] => some s
  | s, e :: es =>
    match step cfg s e with
    | none => none
    | some s1 => run cfg s1 es

/-- The state of the module at program start: static storage is zeroed, no
transfer is armed, the worker is at the top of its loop. -/
def boot : State :=
  { itf_num := 0, _out_ep_addr := 0, _in_ep_addr := 0,
    USBRequestBuffer := ⟨fun _ _ => 0, 0, 0, false, false⟩,
    USBResponseBuffer := ⟨fun _ _ => 0, 0, 0, false, false⟩,
    DAPRequestBuffer := fun _ => 0, DAPResponseBuffer := fun _ => 0,
    _resp_len := 0, pc := Pc.loop, out_xfers := [], in_xfers := [],
    xfer_log := [], opened := [], resumes := 0, calls := [] }

/-- The conditions under which `dap_edpt_open` passes both `TU_VERIFY`s. -/
def open_ok (cfg : Config) (itf_desc : tusb_desc_interface_t) (max_len : Nat) : Prop :=
  cfg.TUSB_CLASS_VENDOR_SPECIFIC = itf_desc.bInterfaceClass ∧
  cfg.DAP_INTERFACE_SUBCLASS = itf_desc.bInterfaceSubClass ∧
  cfg.DAP_INTERFACE_PROTOCOL = itf_desc.bInterfaceProtocol ∧
  max_len ≥ u16 (cfg.sizeof_tusb_desc_interface_t +
    itf_desc.bNumEndpoints * cfg.sizeof_tusb_desc_endpoint_t)

/-- A state right after a successful `dap_edpt_open`: the stack had no transfer
armed and no interpreter call is on record, the worker stands at the top of
its loop, and the interface descriptor lists the OUT endpoint first and the
IN endpoint second (as the configuration descriptor of the probe does). -/
def Opened (cfg : Config) (s : State) : Prop :=
  ∃ (s0 : State) (itf_desc : tusb_desc_interface_t) (edpt : Nat → Nat) (max_len : Nat),
    s0.out_xfers = [] ∧ s0.in_xfers = [] ∧ s0.pc = Pc.loop ∧ s0.calls = [] ∧
    tu_edpt_dir (edpt 0) = TUSB_DIR_OUT ∧ tu_edpt_dir (edpt 1) = TUSB_DIR_IN ∧
    open_ok cfg itf_desc max_len ∧
    s = (dap_edpt_open cfg s0 itf_desc edpt max_len).2

/-- The states reachable after a successful open by `evs`. -/
def ReachableBy (cfg : Config) (evs : List Event) (s : State) : Prop :=
  ∃ s1, Opened cfg s1 ∧ run cfg s1 evs = some s

/-- The inductive invariant of the transport after a successful open, for
states reached in at most `k` steps: the endpoint directions are the ones the
descriptor gave, the read cursors have not passed the write cursors, each
direction has at most one armed transfer, and the response write cursor equals
the request read cursor. -/
structure Inv (k : Nat) (s : State) : Prop where
  dir_out : tu_edpt_dir s._out_ep_addr = TUSB_DIR_OUT
  dir_in : tu_edpt_dir s._in_ep_addr = TUSB_DIR_IN
  outq_dir : ∀ x ∈ s.out_xfers, tu_edpt_dir x.ep_addr = TUSB_DIR_OUT
  inq_dir : ∀ x ∈ s.in_xfers, tu_edpt_dir x.ep_addr = TUSB_DIR_IN
  req_le : s.USBRequestBuffer.rptr ≤ s.USBRequestBuffer.wptr
  req_bound : s.USBRequestBuffer.wptr ≤ k
  pc_wait : ∀ n, s.pc = Pc.wait n → s.USBRequestBuffer.rptr < n ∧ n ≤ s.USBRequestBuffer.wptr
  outq_len : s.out_xfers.length ≤ 1
  full_idle : s.USBRequestBuffer.wasFull = true → s.out_xfers = []
  resp_eq : s.USBResponseBuffer.wptr = s.USBRequestBuffer.rptr
  resp_le : s.USBResponseBuffer.rptr ≤ s.USBResponseBuffer.wptr
  inq_len : s.in_xfers.length ≤ 1
  inq_some : s.in_xfers ≠ [] → s.USBResponseBuffer.rptr < s.USBResponseBuffer.wptr
  nonempty_two : s.USBResponseBuffer.wasEmpty = false →
    s.USBResponseBuffer.rptr + 2 ≤ s.USBResponseBuffer.wptr

/-- A configuration for concrete runs: four slots of 64 bytes, the CMSIS-DAP
command identifiers 0x7E (queue) and 0x7F (execute), and an interpreter that
echoes the request and returns its first byte as the response length. -/
def demo_cfg : Config :=
  { DAP_PACKET_COUNT := 4, DAP_PACKET_SIZE := 64, ID_DAP_QueueCommands := 126,
    ID_DAP_ExecuteCommands := 127, TUSB_CLASS_VENDOR_SPECIFIC := 255,
    DAP_INTERFACE_SUBCLASS := 0, DAP_INTERFACE_PROTOCOL := 0,
    sizeof_tusb_desc_interface_t := 9, sizeof_tusb_desc_endpoint_t := 7,
    DAP_ExecuteCommand := fun _ request => (fun j => request.getD j 0, request.getD 0 0) }

/-- An interface descriptor with the vendor-specific signature and two
endpoints. -/
def demo_itf : tusb_desc_interface_t :=
  { bInterfaceNumber := 0, bNumEndpoints := 2, bInterfaceClass := 255,
    bInterfaceSubClass := 0, bInterfaceProtocol := 0 }

/-- Endpoint addresses 0x04 (OUT) and 0x85 (IN). -/
def demo_edpt (i : Nat) : Nat := if i = 0 then 4 else 133

/-- The state after opening the interface from program start. -/
def demo_open : State := (dap_edpt_open demo_cfg boot demo_itf demo_edpt 23).2

/-- A 64-byte packet with command byte `cmd`, zero elsewhere. -/
def demo_pkt (cmd : Nat) : List Nat := cmd :: List.replicate 63 0

/-- Five times: one packet arrives and the worker processes it; no response is
ever collected by the host. -/
def demo_trace_responses : List Event :=
  [Event.out_done (demo_pkt 1), Event.worker, Event.out_done (demo_pkt 2), Event.worker,
   Event.out_done (demo_pkt 3), Event.worker, Event.out_done (demo_pkt 4), Event.worker,
   Event.out_done (demo_pkt 5), Event.worker]

/-- The state `demo_trace_responses` leads to. -/
def demo_state_responses : State := (run demo_cfg demo_open demo_trace_responses).getD boot

/-- A 64-byte packet with command byte `cmd` and second byte `arg`. -/
def demo_pkt2 (cmd arg : Nat) : List Nat := cmd :: arg :: List.replicate 62 0

/-- Three packets, none of them queue-marked. -/
def demo_burst : List (List Nat) := [demo_pkt 1, demo_pkt 2, demo_pkt 3]

/-- Two queue-marked packets. -/
def demo_queued : List (List Nat) := [demo_pkt2 126 10, demo_pkt2 126 11]

/-- A packet that is not queue-marked. -/
def demo_last : List Nat := demo_pkt2 5 12

/-- The state in which `demo_burst` has been delivered and drained. -/
def demo_state_burst : State :=
  worker_run demo_cfg 3 ((run demo_cfg demo_open (demo_burst.map Event.out_done)).getD boot)

/-- Four packets arrive with no idle slot left for the fourth; the first three
are queue-marked. -/
def demo_trace_full : List Event :=
  [Event.out_done (demo_pkt2 126 10), Event.out_done (demo_pkt2 126 11),
   Event.out_done (demo_pkt2 126 12), Event.out_done (demo_pkt2 5 13)]

/-- The state `demo_trace_full` leads to. -/
def demo_state_full : State := (run demo_cfg demo_open demo_trace_full).getD boot

/-- Four packets arrive with no idle slot left for the fourth; none is
queue-marked. -/
def demo_trace_full_plain : List Event :=
  [Event.out_done (demo_pkt 1), Event.out_done (demo_pkt 2),
   Event.out_done (demo_pkt 3), Event.out_done (demo_pkt 4)]

/-- The state `demo_trace_full_plain` leads to. -/
def demo_state_full_plain : State := (run demo_cfg demo_open demo_trace_full_plain).getD boot

/-- Three requests are processed before the host collects the first response. -/
def demo_trace_lagging : List Event :=
  [Event.out_done (demo_pkt 1), Event.out_done (demo_pkt 2), Event.out_done (demo_pkt 3),
   Event.worker, Event.worker, Event.worker]

/-- The state `demo_trace_lagging` leads to. -/
def demo_state_lagging : State := (run demo_cfg demo_open demo_trace_lagging).getD boot

/-- The state after the host has then collected the first response. -/
def demo_state_lagging_in : State :=
  (run demo_cfg demo_open (demo_trace_lagging ++ [Event.in_done])).getD boot

/-- Four requests are delivered and processed one by one, then five more
packets arrive while the worker does not run, then the worker runs once. -/
def demo_trace_overrun : List Event :=
  [Event.out_done (demo_pkt 1), Event.worker, Event.out_done (demo_pkt 2), Event.worker,
   Event.out_done (demo_pkt 3), Event.worker, Event.out_done (demo_pkt 4), Event.worker,
   Event.out_done (demo_pkt 5), Event.out_done (demo_pkt 6), Event.out_done (demo_pkt 7),
   Event.out_done (demo_pkt 8), Event.out_done (demo_pkt 9), Event.worker]

/-- The state `demo_trace_overrun` leads to. -/
def demo_state_overrun : State := (run demo_cfg demo_open demo_trace_overrun).getD boot

/-- The state of `demo_trace_overrun` before its last two events: eight packets
delivered, four of them drained. -/
def demo_state_overrun_armed : State :=
  (run demo_cfg demo_open (demo_trace_overrun.take 12)).getD boot

/-- Queue-marked packets arriving while the worker is resumed again and again. -/
def demo_trace_queueing : List Event :=
  [Event.out_done (demo_pkt2 126 10), Event.worker, Event.worker,
   Event.out_done (demo_pkt2 126 11), Event.worker]

/-- The state `demo_trace_queueing` leads to. -/
def demo_state_queueing : State := (run demo_cfg demo_open demo_trace_queueing).getD boot

/-- The inbound endpoint has exactly one transfer armed, of full slot size, on
the current write slot of the request ring. -/
def InboundArmed (cfg : Config) (s : State) : Prop :=
  ∃ ep, tu_edpt_dir ep = TUSB_DIR_OUT ∧
    s.out_xfers = [⟨ep, Ring.request, WR_IDX cfg s.USBRequestBuffer, cfg.DAP_PACKET_SIZE⟩]

/-- The relation between a state `s` and the state `s1` after the packets
`pkts` have been delivered by consecutive OUT completions, none of which
found the ring full. -/
structure Delivered (cfg : Config) (s : State) (pkts : List (List Nat)) (s1 : State) : Prop where
  armed : InboundArmed cfg s1
  wptr_eq : s1.USBRequestBuffer.wptr = s.USBRequestBuffer.wptr + pkts.length
  rptr_eq : s1.USBRequestBuffer.rptr = s.USBRequestBuffer.rptr
  not_full : pkts ≠ [] → s1.USBRequestBuffer.wasFull = false
  same : pkts = [] → s1 = s
  data_new : ∀ i, i < pkts.length →
    s1.USBRequestBuffer.data ((s.USBRequestBuffer.wptr + i) % cfg.DAP_PACKET_COUNT) =
      usb_receive (s.USBRequestBuffer.data ((s.USBRequestBuffer.wptr + i) % cfg.DAP_PACKET_COUNT))
        (pkts.getD i [])
  data_old : ∀ j, (∀ i, i < pkts.length →
      j ≠ (s.USBRequestBuffer.wptr + i) % cfg.DAP_PACKET_COUNT) →
    s1.USBRequestBuffer.data j = s.USBRequestBuffer.data j
  pc_eq : s1.pc = s.pc
  calls_eq : s1.calls = s.calls
  resp_eq : s1.USBResponseBuffer = s.USBResponseBuffer
  in_xfers_eq : s1.in_xfers = s.in_xfers
  resp_len_eq : s1._resp_len = s._resp_len
  in_ep_eq : s1._in_ep_addr = s._in_ep_addr

/-- The state after an OUT completion that found the request ring not full. -/
def out_done_admitted (cfg : Config) (s : State) (ep : Nat) (pkt : List Nat) : State :=
  { s with
    USBRequestBuffer :=
      { s.USBRequestBuffer with
        data := Function.update s.USBRequestBuffer.data (WR_IDX cfg s.USBRequestBuffer)
          (usb_receive (s.USBRequestBuffer.data (WR_IDX cfg s.USBRequestBuffer)) pkt),
        wptr := u32 (s.USBRequestBuffer.wptr + 1),
        wasFull := false },
    out_xfers :=
      [⟨ep, Ring.request, u32 (s.USBRequestBuffer.wptr + 1) % cfg.DAP_PACKET_COUNT,
        cfg.DAP_PACKET_SIZE⟩],
    xfer_log := s.xfer_log ++
      [⟨ep, Ring.request, u32 (s.USBRequestBuffer.wptr + 1) % cfg.DAP_PACKET_COUNT,
        cfg.DAP_PACKET_SIZE⟩],
    resumes := s.resumes + 1 }


/-- The request storage after the admission scan has rewritten the command byte
of the `k` slots from cursor `n` on. -/
def mark_queued (cfg : Config) : Nat → Nat → (Nat → Nat → Nat) → (Nat → Nat → Nat)
  | 0, _, data => data
  | k + 1, n, data =>
    mark_queued cfg k (n + 1)
      (Function.update data (n % cfg.DAP_PACKET_COUNT)
        (Function.update (data (n % cfg.DAP_PACKET_COUNT)) 0 cfg.ID_DAP_ExecuteCommands))


/-- The state after an OUT completion that found the request ring full. -/
def out_done_deferred (cfg : Config) (s : State) (pkt : List Nat) : State :=
  { s with
    USBRequestBuffer :=
      { s.USBRequestBuffer with
        data := Function.update s.USBRequestBuffer.data (WR_IDX cfg s.USBRequestBuffer)
          (usb_receive (s.USBRequestBuffer.data (WR_IDX cfg s.USBRequestBuffer)) pkt),
        wasFull := true },
    out_xfers := [],
    resumes := s.resumes + 1 }

/-- Events of a host that sends nothing but queue-marked packets. -/
def QueueEvent (cfg : Config) : Event → Prop
  | Event.out_done pkt => 0 < pkt.length ∧ pkt.getD 0 0 = cfg.ID_DAP_QueueCommands
  | Event.in_done => True
  | Event.worker => True

/-- The invariant while only queue-marked packets have arrived since open. -/
structure QueueWait (cfg : Config) (s : State) : Prop where
  calls_nil : s.calls = []
  rptr_zero : s.USBRequestBuffer.rptr = 0
  wptr_lt : s.USBRequestBuffer.wptr < cfg.DAP_PACKET_COUNT
  in_nil : s.in_xfers = []
  armed : s.USBRequestBuffer.wasFull = false → InboundArmed cfg s
  idle_full : s.USBRequestBuffer.wasFull = true → s.out_xfers = []
  scan_le : scan_start s ≤ s.USBRequestBuffer.wptr
  queued : ∀ i, scan_start s ≤ i → i < s.USBRequestBuffer.wptr →
    s.USBRequestBuffer.data (i % cfg.DAP_PACKET_COUNT) 0 = cfg.ID_DAP_QueueCommands


/-- The interpreter log and the response ring: one published response per
call, and `_resp_len` holds what the latest call returned. -/
structure CallLog (s : State) : Prop where
  len_eq : s.calls.length = s.USBResponseBuffer.wptr
  last : ∀ c, s.calls.getLast? = some c → s._resp_len = c.2


/-- What the worker finds in the request ring after the packets `pkts` have been
received into consecutive slots from cursor `w` on: each packet, followed by the
bytes its slot held beyond the packet's length. -/
def received (cfg : Config) (data : Nat → Nat → Nat) (w : Nat) (pkts : List (List Nat)) :
    List (List Nat) :=
  (List.range pkts.length).map (fun i =>
    bytes (usb_receive (data ((w + i) % cfg.DAP_PACKET_COUNT)) (pkts.getD i []))
      cfg.DAP_PACKET_SIZE)


/-- The state of `demo_trace_overrun` before its last three events: four
packets delivered and drained, three more delivered. -/
def demo_state_overrun_full : State :=
  (run demo_cfg demo_open (demo_trace_overrun.take 11)).getD boot

/-- The state of `demo_trace_responses` before its last two events: four
requests processed, no response collected by the host. -/
def demo_state_four_responses : State :=
  (run demo_cfg demo_open (demo_trace_responses.take 8)).getD boot

/-- Four requests are delivered and processed one by one; then a queue-marked
packet arrives and the worker suspends inside the admission scan behind it;
then four more packets arrive, the last of them queue-marked, and the worker is
resumed. -/
def demo_trace_marker : List Event :=
  [Event.out_done (demo_pkt 1), Event.worker, Event.out_done (demo_pkt 2), Event.worker,
   Event.out_done (demo_pkt 3), Event.worker, Event.out_done (demo_pkt 4), Event.worker,
   Event.out_done (demo_pkt2 126 10), Event.worker,
   Event.out_done (demo_pkt2 5 11), Event.out_done (demo_pkt2 6 12),
   Event.out_done (demo_pkt2 7 13), Event.out_done (demo_pkt2 126 14), Event.worker]

/-- The state `demo_trace_marker` leads to. -/
def demo_state_marker : State := (run demo_cfg demo_open demo_trace_marker).getD boot

/-- The state of `demo_trace_marker` before its last two events. -/
def demo_state_marker_armed : State :=
  (run demo_cfg demo_open (demo_trace_marker.take 13)).getD boot


/-! ## Auxiliary lemmas -/

theorem usbd_edpt_xfer_out (s : State) (ep_addr : Nat) (ring : Ring) (slot len : Nat)
    (h : tu_edpt_dir ep_addr = TUSB_DIR_OUT) :
    usbd_edpt_xfer s ep_addr ring slot len =
      { s with xfer_log := s.xfer_log ++ [⟨ep_addr, ring, slot, len⟩],
               out_xfers := s.out_xfers ++ [⟨ep_addr, ring, slot, len⟩] } := by
  simp [usbd_edpt_xfer, h, TUSB_DIR_OUT, TUSB_DIR_IN]

theorem usbd_edpt_xfer_in (s : State) (ep_addr : Nat) (ring : Ring) (slot len : Nat)
    (h : tu_edpt_dir ep_addr = TUSB_DIR_IN) :
    usbd_edpt_xfer s ep_addr ring slot len =
      { s with xfer_log := s.xfer_log ++ [⟨ep_addr, ring, slot, len⟩],
               in_xfers := s.in_xfers ++ [⟨ep_addr, ring, slot, len⟩] } := by
  simp [usbd_edpt_xfer, h]

theorem dap_edpt_open_ok (cfg : Config) (s : State) (itf_desc : tusb_desc_interface_t)
    (edpt : Nat → Nat) (max_len : Nat) (h : open_ok cfg itf_desc max_len) :
    dap_edpt_open cfg s itf_desc edpt max_len =
      (u16 (cfg.sizeof_tusb_desc_interface_t +
          itf_desc.bNumEndpoints * cfg.sizeof_tusb_desc_endpoint_t),
        usbd_edpt_open
          { (usbd_edpt_xfer
              (usbd_edpt_open
                { s with
                  USBResponseBuffer :=
                    { s.USBResponseBuffer with
                      wptr := 0, rptr := 0, wasFull := false, wasEmpty := true },
                  USBRequestBuffer :=
                    { s.USBRequestBuffer with
                      wptr := 0, rptr := 0, wasFull := false, wasEmpty := true },
                  itf_num := itf_desc.bInterfaceNumber,
                  _out_ep_addr := edpt 0 } (edpt 0))
              (edpt 0) Ring.request 0 cfg.DAP_PACKET_SIZE) with _in_ep_addr := edpt 1 }
          (edpt 1)) := by
  obtain ⟨h1, h2, h3, h4⟩ := h
  simp [dap_edpt_open, h1, h2, h3, h4, usbd_edpt_open, WR_IDX]

theorem inv_opened (cfg : Config) (s : State) (h : Opened cfg s) : Inv 0 s := by
  obtain ⟨s0, itf, edpt, max_len, ho, hi, hpc, _, hd0, hd1, hok, rfl⟩ := h
  rw [dap_edpt_open_ok cfg s0 itf edpt max_len hok, usbd_edpt_xfer_out _ _ _ _ _ hd0]
  constructor <;> simp [usbd_edpt_open, ho, hi, hpc, hd0, hd1]


theorem write_slot_fields (s : State) (x : Xfer) (pkt : List Nat) :
    (write_slot s x pkt)._out_ep_addr = s._out_ep_addr ∧
    (write_slot s x pkt)._in_ep_addr = s._in_ep_addr ∧
    (write_slot s x pkt).out_xfers = s.out_xfers ∧
    (write_slot s x pkt).in_xfers = s.in_xfers ∧
    (write_slot s x pkt).pc = s.pc ∧
    (write_slot s x pkt).calls = s.calls ∧
    (write_slot s x pkt).xfer_log = s.xfer_log ∧
    (write_slot s x pkt).resumes = s.resumes ∧
    (write_slot s x pkt)._resp_len = s._resp_len ∧
    (write_slot s x pkt).USBRequestBuffer.wptr = s.USBRequestBuffer.wptr ∧
    (write_slot s x pkt).USBRequestBuffer.rptr = s.USBRequestBuffer.rptr ∧
    (write_slot s x pkt).USBRequestBuffer.wasFull = s.USBRequestBuffer.wasFull ∧
    (write_slot s x pkt).USBRequestBuffer.wasEmpty = s.USBRequestBuffer.wasEmpty ∧
    (write_slot s x pkt).USBResponseBuffer.wptr = s.USBResponseBuffer.wptr ∧
    (write_slot s x pkt).USBResponseBuffer.rptr = s.USBResponseBuffer.rptr ∧
    (write_slot s x pkt).USBResponseBuffer.wasFull = s.USBResponseBuffer.wasFull ∧
    (write_slot s x pkt).USBResponseBuffer.wasEmpty = s.USBResponseBuffer.wasEmpty := by
  unfold write_slot
  split <;> simp

theorem inv_out_done (cfg : Config) (k : Nat) (s : State) (x : Xfer) (rest : List Xfer)
    (pkt : List Nat) (h : Inv k s) (hq : s.out_xfers = x :: rest) (hk : k + 1 < 4294967296) :
    Inv (k + 1)
      (dap_edpt_xfer_cb cfg (write_slot { s with out_xfers := rest } x pkt) x.ep_addr
        pkt.length).2 := by
  have hrest : rest = [] := by
    have := h.outq_len
    rw [hq] at this
    simpa using this
  have hdir : tu_edpt_dir x.ep_addr = TUSB_DIR_OUT := h.outq_dir x (by simp [hq])
  have hfull : s.USBRequestBuffer.wasFull = false := by
    cases hf : s.USBRequestBuffer.wasFull
    · rfl
    · have := h.full_idle hf
      simp [hq] at this
  subst hrest
  obtain ⟨f1, f2, f3, f4, f5, f6, f7, f8, f9, f10, f11, f12, f13, f14, f15, f16, f17⟩ :=
    write_slot_fields { s with out_xfers := [] } x pkt
  simp only at f1 f2 f3 f4 f5 f6 f7 f8 f9 f10 f11 f12 f13 f14 f15 f16 f17
  have hb := h.req_bound
  have hle := h.req_le
  have hne : ¬ TUSB_DIR_OUT = TUSB_DIR_IN := by decide
  unfold dap_edpt_xfer_cb
  simp only [hdir, hne, if_false, if_true]
  split
  · constructor <;> simp only [f1, f2, f3, f4, f5, f10, f11, f12, f14, f15, f17]
    all_goals first
      | exact h.dir_out | exact h.dir_in | exact h.inq_dir | exact h.req_le
      | exact h.pc_wait | exact h.resp_eq | exact h.resp_le | exact h.inq_len
      | exact h.inq_some | exact h.nonempty_two | simp | omega
  · split
    · rw [usbd_edpt_xfer_out _ _ _ _ _ hdir]
      constructor <;>
        simp only [vTaskResume, f1, f2, f3, f4, f5, f10, f11, f12, f14, f15, f17, u32]
      all_goals first
        | exact h.dir_out | exact h.dir_in | exact h.inq_dir
        | exact h.resp_eq | exact h.resp_le | exact h.inq_len
        | exact h.inq_some | exact h.nonempty_two | (simp; done) | omega
        | (simp; exact hdir)
        | (intro n hn; have := h.pc_wait n hn; omega)
    · constructor <;>
        simp only [vTaskResume, f1, f2, f3, f4, f5, f10, f11, f12, f14, f15, f17, u32]
      all_goals first
        | exact h.dir_out | exact h.dir_in | exact h.inq_dir | exact h.req_le
        | exact h.pc_wait | exact h.resp_eq | exact h.resp_le | exact h.inq_len
        | exact h.inq_some | exact h.nonempty_two | (simp; done) | omega


theorem inv_mono (k k2 : Nat) (s : State) (h : Inv k s) (hk : k ≤ k2) : Inv k2 s :=
  { h with req_bound := le_trans h.req_bound hk }

theorem inv_in_done (cfg : Config) (k : Nat) (s : State) (x : Xfer) (rest : List Xfer)
    (h : Inv k s) (hq : s.in_xfers = x :: rest) (hk : k + 1 < 4294967296) :
    Inv (k + 1) (dap_edpt_xfer_cb cfg { s with in_xfers := rest } x.ep_addr x.len).2 := by
  have hrest : rest = [] := by
    have := h.inq_len
    rw [hq] at this
    simpa using this
  subst hrest
  have hdir : tu_edpt_dir x.ep_addr = TUSB_DIR_IN := h.inq_dir x (by simp [hq])
  have hlt : s.USBResponseBuffer.rptr < s.USBResponseBuffer.wptr := h.inq_some (by simp [hq])
  have hb := h.req_bound
  have hle := h.req_le
  have heq := h.resp_eq
  have h2 := h.nonempty_two
  unfold dap_edpt_xfer_cb
  simp only [hdir, if_true]
  split
  · constructor <;> simp only []
    all_goals first
      | exact h.dir_out | exact h.dir_in | exact h.outq_dir | exact h.req_le
      | exact h.pc_wait | exact h.resp_eq | exact h.resp_le | exact h.outq_len
      | exact h.full_idle | exact h.nonempty_two | simp | omega
  · cases hE : s.USBResponseBuffer.wasEmpty
    · have h3 := h2 hE
      simp only [Bool.false_eq_true, not_false_eq_true, if_true]
      rw [usbd_edpt_xfer_in _ _ _ _ _ hdir]
      constructor <;> simp only [vTaskResume, u32]
      all_goals first
        | exact h.dir_out | exact h.dir_in | exact h.outq_dir | exact h.req_le
        | exact h.pc_wait | exact h.outq_len
        | exact h.full_idle | omega
        | (simp; exact hdir)
        | simp
      intro hne
      have : ¬ ((s.USBResponseBuffer.rptr + 1) % 4294967296 + 1) % 4294967296 =
          s.USBResponseBuffer.wptr := by simpa using hne
      omega
    · simp only [not_true_eq_false, if_false]
      constructor <;> simp only [vTaskResume, u32]
      all_goals first
        | exact h.dir_out | exact h.dir_in | exact h.outq_dir | exact h.req_le
        | exact h.pc_wait | exact h.outq_len
        | exact h.full_idle | omega | simp

theorem admission_scan_some (cfg : Config) (wptr : Nat) (hw : wptr < 4294967296) :
    ∀ (fuel n : Nat) (data : Nat → Nat → Nat) (m : Nat), n ≤ wptr → fuel = wptr - n →
      (admission_scan cfg wptr fuel n data).2 = some m → m = wptr := by
  intro fuel
  induction fuel with
  | zero =>
    intro n data m hn hf hs
    simp only [admission_scan, Option.some.injEq] at hs
    omega
  | succ fuel ih =>
    intro n data m hn hf hs
    have hne : n ≠ wptr := by omega
    simp only [admission_scan, hne, if_false] at hs
    split at hs
    · refine ih (u32 (n + 1)) _ m ?_ ?_ hs
      · simp only [u32]; omega
      · simp only [u32]; omega
    · simp at hs

theorem inv_drain_packet (cfg : Config) (k : Nat) (s : State) (h : Inv k s)
    (hlt : s.USBRequestBuffer.rptr < s.USBRequestBuffer.wptr) (hpc : s.pc = Pc.loop)
    (hk : k + 1 < 4294967296) : Inv (k + 1) (drain_packet cfg s) := by
  have hb := h.req_bound
  have heq := h.resp_eq
  have hle := h.resp_le
  have h2 := h.nonempty_two
  have hin := h.inq_some
  have hfull := h.full_idle
  have hdo := h.dir_out
  have hdi := h.dir_in
  have hnil2 : s.USBResponseBuffer.wptr = s.USBResponseBuffer.rptr → s.in_xfers = [] := by
    intro he
    by_contra hc
    have := hin hc
    omega
  unfold drain_packet rearm_request execute_command publish_response buffer_empty
  simp only []
  cases hF : s.USBRequestBuffer.wasFull
  · simp only [Bool.false_eq_true, if_false]
    by_cases hE : s.USBResponseBuffer.wptr = s.USBResponseBuffer.rptr
    · simp only [hE, beq_self_eq_true, if_true]
      rw [usbd_edpt_xfer_in _ _ _ _ _ hdi]
      have hnil := hnil2 hE
      constructor <;> simp only [u32, hnil]
      all_goals first
        | exact h.dir_out | exact h.dir_in | exact h.outq_dir
        | exact h.outq_len | exact h.full_idle
        | omega | (intro n hn; rw [hpc] at hn; exact absurd hn (by simp)) | (simp; done) | (intro _; omega)
        | (simp; exact hdi)
        | (intro hc; have := h2 hc; omega)
    · simp only [hE, beq_iff_eq, if_false]
      constructor <;> simp only [u32]
      all_goals first
        | exact h.dir_out | exact h.dir_in | exact h.outq_dir | exact h.inq_dir
        | exact h.outq_len | exact h.inq_len | exact h.full_idle
        | omega | (intro n hn; rw [hpc] at hn; exact absurd hn (by simp)) | (simp; done) | (intro _; omega)
  · simp only [if_true]
    rw [usbd_edpt_xfer_out _ _ _ _ _ hdo]
    have hnil := hfull hF
    by_cases hE : s.USBResponseBuffer.wptr = s.USBResponseBuffer.rptr
    · simp only [hE, beq_self_eq_true, if_true]
      rw [usbd_edpt_xfer_in _ _ _ _ _ hdi]
      have hnil3 := hnil2 hE
      constructor <;> simp only [u32, hnil, hnil3]
      all_goals first
        | exact h.dir_out | exact h.dir_in
        | omega | (intro n hn; rw [hpc] at hn; exact absurd hn (by simp)) | (simp; done) | (intro _; omega)
        | (simp; exact hdo) | (simp; exact hdi)
        | (intro hc; have := h2 hc; omega)
    · simp only [hE, beq_iff_eq, if_false]
      constructor <;> simp only [u32, hnil]
      all_goals first
        | exact h.dir_out | exact h.dir_in | exact h.inq_dir
        | exact h.inq_len
        | omega | (intro n hn; rw [hpc] at hn; exact absurd hn (by simp)) | (simp; done) | (intro _; omega)
        | (simp; exact hdo)


theorem inv_worker_iter (cfg : Config) (k : Nat) (s : State) (h : Inv k s)
    (hk : k + 1 < 4294967296) : Inv (k + 1) (worker_iter cfg s) := by
  unfold worker_iter
  split
  · exact inv_mono k (k + 1) s h (Nat.le_succ k)
  · rename_i hnb
    have hb := h.req_bound
    have hle := h.req_le
    have hw : s.USBRequestBuffer.wptr < 4294967296 := by omega
    -- the scan starts strictly below the write cursor
    have hstart : s.USBRequestBuffer.rptr < s.USBRequestBuffer.wptr ∧
        scan_start s ≤ s.USBRequestBuffer.wptr := by
      unfold scan_start
      cases hpc : s.pc with
      | loop =>
        simp only [worker_blocked, hpc, beq_iff_eq] at hnb
        exact ⟨by omega, by show s.USBRequestBuffer.rptr ≤ _; omega⟩
      | wait n0 =>
        have := h.pc_wait n0 hpc
        simp only [worker_blocked, hpc, beq_iff_eq] at hnb
        exact ⟨by omega, by show n0 ≤ _; omega⟩
    obtain ⟨hlt, hn⟩ := hstart
    simp only []
    split
    · rename_i m hm
      have hmw := admission_scan_some cfg s.USBRequestBuffer.wptr hw _ _ _ m hn
        (by simp only [u32]; omega) hm
      subst hmw
      exact
        { dir_out := h.dir_out, dir_in := h.dir_in, outq_dir := h.outq_dir,
          inq_dir := h.inq_dir, req_le := h.req_le,
          req_bound := Nat.le_succ_of_le h.req_bound,
          pc_wait := fun n hn => by
            have : n = s.USBRequestBuffer.wptr := by
              simp only [Pc.wait.injEq] at hn
              exact hn.symm
            subst this
            exact ⟨hlt, le_refl _⟩,
          outq_len := h.outq_len, full_idle := h.full_idle, resp_eq := h.resp_eq,
          resp_le := h.resp_le, inq_len := h.inq_len, inq_some := h.inq_some,
          nonempty_two := h.nonempty_two }
    · refine inv_drain_packet cfg k _ ?_ hlt rfl hk
      exact
        { dir_out := h.dir_out, dir_in := h.dir_in, outq_dir := h.outq_dir,
          inq_dir := h.inq_dir, req_le := h.req_le, req_bound := h.req_bound,
          pc_wait := fun n hn => by simp at hn,
          outq_len := h.outq_len, full_idle := h.full_idle, resp_eq := h.resp_eq,
          resp_le := h.resp_le, inq_len := h.inq_len, inq_some := h.inq_some,
          nonempty_two := h.nonempty_two }

theorem inv_step (cfg : Config) (k : Nat) (s s1 : State) (e : Event) (h : Inv k s)
    (hk : k + 1 < 4294967296) (hs : step cfg s e = some s1) : Inv (k + 1) s1 := by
  cases e with
  | out_done pkt =>
    simp only [step] at hs
    split at hs
    · simp at hs
    · rename_i x rest hq
      split at hs
      · simp only [Option.some.injEq] at hs
        subst hs
        exact inv_out_done cfg k s x rest pkt h hq hk
      · simp at hs
  | in_done =>
    simp only [step] at hs
    split at hs
    · simp at hs
    · rename_i x rest hq
      simp only [Option.some.injEq] at hs
      subst hs
      exact inv_in_done cfg k s x rest h hq hk
  | worker =>
    simp only [step, Option.some.injEq] at hs
    subst hs
    exact inv_worker_iter cfg k s h hk

theorem inv_run (cfg : Config) : ∀ (evs : List Event) (k : Nat) (s s1 : State), Inv k s →
    k + evs.length < 4294967296 → run cfg s evs = some s1 → Inv (k + evs.length) s1 := by
  intro evs
  induction evs with
  | nil =>
    intro k s s1 h _ hr
    simp only [run, Option.some.injEq] at hr
    subst hr
    simpa using h
  | cons e es ih =>
    intro k s s1 h hk hr
    simp only [List.length_cons] at hk
    simp only [run] at hr
    split at hr
    · simp at hr
    · rename_i s2 hs
      have h2 := inv_step cfg k s s2 e h (by omega) hs
      have := ih (k + 1) s2 s1 h2 (by omega) hr
      simpa [Nat.add_assoc, Nat.add_comm 1] using this

theorem inv_reachable (cfg : Config) (evs : List Event) (s : State)
    (h : ReachableBy cfg evs s) (hlen : evs.length < 4294967296) : Inv evs.length s := by
  obtain ⟨s1, ho, hr⟩ := h
  have := inv_run cfg evs 0 s1 s (inv_opened cfg s1 ho) (by omega) hr
  simpa using this

theorem tu_edpt_dir_cases (ep_addr : Nat) :
    tu_edpt_dir ep_addr = TUSB_DIR_IN ∨ tu_edpt_dir ep_addr = TUSB_DIR_OUT := by
  unfold tu_edpt_dir
  split
  · exact Or.inl rfl
  · exact Or.inr rfl


theorem usbd_edpt_xfer_frame (s : State) (ep_addr : Nat) (ring : Ring) (slot len : Nat) :
    (usbd_edpt_xfer s ep_addr ring slot len).USBRequestBuffer = s.USBRequestBuffer ∧
    (usbd_edpt_xfer s ep_addr ring slot len).USBResponseBuffer = s.USBResponseBuffer ∧
    (usbd_edpt_xfer s ep_addr ring slot len).xfer_log =
      s.xfer_log ++ [⟨ep_addr, ring, slot, len⟩] ∧
    (usbd_edpt_xfer s ep_addr ring slot len).calls = s.calls ∧
    (usbd_edpt_xfer s ep_addr ring slot len).pc = s.pc ∧
    (usbd_edpt_xfer s ep_addr ring slot len)._resp_len = s._resp_len ∧
    (usbd_edpt_xfer s ep_addr ring slot len).resumes = s.resumes ∧
    (usbd_edpt_xfer s ep_addr ring slot len)._out_ep_addr = s._out_ep_addr ∧
    (usbd_edpt_xfer s ep_addr ring slot len)._in_ep_addr = s._in_ep_addr ∧
    (usbd_edpt_xfer s ep_addr ring slot len).DAPRequestBuffer = s.DAPRequestBuffer ∧
    (usbd_edpt_xfer s ep_addr ring slot len).DAPResponseBuffer = s.DAPResponseBuffer := by
  unfold usbd_edpt_xfer
  split <;> simp

/-- What `publish_response` leaves alone, and what it appends to the transfer
log: nothing, or one transfer out of the response ring. -/
theorem publish_response_frame (cfg : Config) (s : State) :
    (publish_response cfg s).USBRequestBuffer = s.USBRequestBuffer ∧
    (publish_response cfg s).calls = s.calls ∧
    (publish_response cfg s).pc = s.pc ∧
    (publish_response cfg s)._resp_len = s._resp_len ∧
    (publish_response cfg s)._out_ep_addr = s._out_ep_addr ∧
    (publish_response cfg s)._in_ep_addr = s._in_ep_addr ∧
    (publish_response cfg s).resumes = s.resumes ∧
    ∃ tail, (publish_response cfg s).xfer_log = s.xfer_log ++ tail ∧
      ∀ y ∈ tail, y.ring = Ring.response := by
  unfold publish_response
  simp only []
  split
  · have f := usbd_edpt_xfer_frame
      { s with USBResponseBuffer :=
          { s.USBResponseBuffer with
            data := Function.update s.USBResponseBuffer.data (WR_IDX cfg s.USBResponseBuffer)
              (memcpy (s.USBResponseBuffer.data (WR_IDX cfg s.USBResponseBuffer))
                s.DAPResponseBuffer (u16 s._resp_len)),
            wptr := u32 (s.USBResponseBuffer.wptr + 1) } }
      s._in_ep_addr Ring.response
      (RD_IDX cfg { s.USBResponseBuffer with
            data := Function.update s.USBResponseBuffer.data (WR_IDX cfg s.USBResponseBuffer)
              (memcpy (s.USBResponseBuffer.data (WR_IDX cfg s.USBResponseBuffer))
                s.DAPResponseBuffer (u16 s._resp_len)),
            wptr := u32 (s.USBResponseBuffer.wptr + 1) })
      (u16 s._resp_len)
    obtain ⟨f1, -, f3, f4, f5, f6, f7, f8, f9, -, -⟩ := f
    refine ⟨f1, f4, f5, f6, f8, f9, f7, _, f3, ?_⟩
    intro y hy
    simp only [List.mem_singleton] at hy
    rw [hy]
  · exact ⟨rfl, rfl, rfl, rfl, rfl, rfl, rfl, [], by simp, by simp⟩

theorem bytes_memcpy (dst src : Nat → Nat) (n : Nat) : bytes (memcpy dst src n) n = bytes src n := by
  unfold bytes memcpy
  apply List.map_congr_left
  intro j hj
  simp only [List.mem_range] at hj
  simp [hj]

/-- One drained packet when the out callback had not found the ring full. -/
theorem drain_packet_not_full (cfg : Config) (s : State)
    (hF : s.USBRequestBuffer.wasFull = false) :
    (drain_packet cfg s).USBRequestBuffer =
      { s.USBRequestBuffer with rptr := u32 (s.USBRequestBuffer.rptr + 1) } ∧
    (drain_packet cfg s).calls.map Prod.fst =
      s.calls.map Prod.fst ++
        [bytes (s.USBRequestBuffer.data (RD_IDX cfg s.USBRequestBuffer)) cfg.DAP_PACKET_SIZE] ∧
    (drain_packet cfg s).pc = s.pc := by
  unfold drain_packet
  simp only []
  obtain ⟨p1, p2, p3, -⟩ := publish_response_frame cfg
    (execute_command cfg (rearm_request cfg
      { s with
        DAPRequestBuffer :=
          memcpy s.DAPRequestBuffer (s.USBRequestBuffer.data (RD_IDX cfg s.USBRequestBuffer))
            cfg.DAP_PACKET_SIZE,
        USBRequestBuffer :=
          { s.USBRequestBuffer with rptr := u32 (s.USBRequestBuffer.rptr + 1) } }))
  rw [p1, p2, p3]
  simp [execute_command, rearm_request, hF, bytes_memcpy]

theorem worker_run_blocked (cfg : Config) (fuel : Nat) (s : State)
    (h : worker_blocked s = true) : worker_run cfg fuel s = s := by
  cases fuel with
  | zero => rfl
  | succ f => simp [worker_run, h]

theorem range_succ_map_shift (M : Nat) (f : Nat → List Nat) :
    (List.range (M + 1)).map f = f 0 :: (List.range M).map (fun i => f (i + 1)) := by
  rw [List.range_succ_eq_map]
  simp [List.map_map, Function.comp_def]

/-- A worker left alone with `M` admissible packets in the ring. -/
theorem worker_run_drains (cfg : Config) :
    ∀ (M : Nat) (s : State) (fuel : Nat), M ≤ fuel → s.pc = Pc.loop →
      s.USBRequestBuffer.wasFull = false →
      s.USBRequestBuffer.wptr = s.USBRequestBuffer.rptr + M →
      s.USBRequestBuffer.wptr < 4294967296 →
      (∀ i, i < M →
        s.USBRequestBuffer.data ((s.USBRequestBuffer.rptr + i) % cfg.DAP_PACKET_COUNT) 0 ≠
          cfg.ID_DAP_QueueCommands) →
      (worker_run cfg fuel s).calls.map Prod.fst =
        s.calls.map Prod.fst ++ (List.range M).map (fun i =>
          bytes (s.USBRequestBuffer.data ((s.USBRequestBuffer.rptr + i) % cfg.DAP_PACKET_COUNT))
            cfg.DAP_PACKET_SIZE) ∧
      (worker_run cfg fuel s).USBRequestBuffer =
        { s.USBRequestBuffer with rptr := s.USBRequestBuffer.wptr } ∧
      (worker_run cfg fuel s).pc = Pc.loop := by
  intro M
  induction M with
  | zero =>
    intro s fuel _ hpc hF hw _ _
    have hb : worker_blocked s = true := by
      simp only [worker_blocked, hpc, beq_iff_eq]
      omega
    rw [worker_run_blocked cfg fuel s hb]
    refine ⟨by simp, ?_, hpc⟩
    cases hs : s.USBRequestBuffer
    simp only [hs] at hw
    simp [hw]
  | succ M ih =>
    intro s fuel hfuel hpc hF hw hlt hdata
    obtain ⟨f, rfl⟩ : ∃ f, fuel = f + 1 := ⟨fuel - 1, by omega⟩
    have hnb : ¬ worker_blocked s = true := by
      simp only [worker_blocked, hpc, beq_iff_eq]
      omega
    have h0 := hdata 0 (by omega)
    simp only [Nat.add_zero] at h0
    have hscanfuel : u32 (s.USBRequestBuffer.wptr + 4294967296 - s.USBRequestBuffer.rptr) =
        M + 1 := by
      simp only [u32]
      omega
    have hne : s.USBRequestBuffer.rptr ≠ s.USBRequestBuffer.wptr := by omega
    have hiter : worker_iter cfg s = drain_packet cfg s := by
      unfold worker_iter
      simp only [hnb, if_false, scan_start, hpc, hscanfuel, admission_scan, hne, h0,
        Bool.false_eq_true]
      rw [← hpc]
    obtain ⟨d1, d2, d3⟩ := drain_packet_not_full cfg s hF
    have := ih (worker_iter cfg s) f (by omega) (by rw [hiter, d3, hpc])
      (by rw [hiter, d1]; exact hF)
      (by rw [hiter, d1]; simp only [u32]; omega)
      (by rw [hiter, d1]; exact hlt)
      (by
        intro i hi
        rw [hiter, d1]
        simp only [u32]
        have := hdata (i + 1) (by omega)
        have e : (s.USBRequestBuffer.rptr + 1) % 4294967296 + i =
            s.USBRequestBuffer.rptr + (i + 1) := by omega
        rw [e]
        exact this)
    obtain ⟨r1, r2, r3⟩ := this
    have hrun : worker_run cfg (f + 1) s = worker_run cfg f (worker_iter cfg s) := by
      simp [worker_run, hnb]
    rw [hrun]
    refine ⟨?_, ?_, r3⟩
    · rw [r1, hiter, d2, d1, range_succ_map_shift]
      simp only [u32, RD_IDX, List.append_assoc, List.singleton_append, Nat.add_zero]
      have e : ∀ i, (s.USBRequestBuffer.rptr + 1) % 4294967296 + i =
          s.USBRequestBuffer.rptr + (i + 1) := by intro i; omega
      simp only [e]
    · rw [r2, hiter, d1]

theorem mod_add_ne (N a d : Nat) (hd : 0 < d) (hdN : d < N) : (a + d) % N ≠ a % N := by
  intro h
  have h1 : (a + d - a) % N = 0 := Nat.sub_mod_eq_zero_of_mod_eq h
  rw [Nat.add_sub_cancel_left, Nat.mod_eq_of_lt hdN] at h1
  omega

theorem buffer_not_full (cfg : Config) (b : buffer_t) (hle : b.rptr ≤ b.wptr)
    (hocc : b.wptr - b.rptr + 1 < cfg.DAP_PACKET_COUNT) (hw : b.wptr + 1 < 4294967296) :
    buffer_full cfg b = false := by
  unfold buffer_full
  simp only [beq_eq_false_iff_ne, ne_eq, u32]
  rw [Nat.mod_eq_of_lt hw]
  intro h
  have hN : 0 < cfg.DAP_PACKET_COUNT := by omega
  have hr : b.rptr < cfg.DAP_PACKET_COUNT := by
    rw [← h]
    exact Nat.mod_lt _ hN
  have e : b.wptr + 1 = b.rptr + (b.wptr - b.rptr + 1) := by omega
  rw [e] at h
  have := mod_add_ne cfg.DAP_PACKET_COUNT b.rptr (b.wptr - b.rptr + 1) (by omega) hocc
  rw [Nat.mod_eq_of_lt hr] at this
  exact this h

theorem step_out_done_not_full (cfg : Config) (s : State) (ep : Nat) (pkt : List Nat)
    (hd : tu_edpt_dir ep = TUSB_DIR_OUT)
    (hq : s.out_xfers = [⟨ep, Ring.request, WR_IDX cfg s.USBRequestBuffer, cfg.DAP_PACKET_SIZE⟩])
    (hp : pkt.length ≤ cfg.DAP_PACKET_SIZE) (hnf : buffer_full cfg s.USBRequestBuffer = false) :
    step cfg s (Event.out_done pkt) = some (out_done_admitted cfg s ep pkt) := by
  unfold out_done_admitted
  have hne : ¬ TUSB_DIR_OUT = TUSB_DIR_IN := by decide
  have hx : ¬ pkt.length > cfg.DAP_PACKET_SIZE := by omega
  have hnf2 : ∀ d, buffer_full cfg
      { data := d, wptr := s.USBRequestBuffer.wptr, rptr := s.USBRequestBuffer.rptr,
        wasEmpty := s.USBRequestBuffer.wasEmpty, wasFull := s.USBRequestBuffer.wasFull } =
      false := fun _ => hnf
  simp only [step, hq, hp, if_true, write_slot, dap_edpt_xfer_cb, hd, hne, if_false, hx, hnf2,
    Bool.false_eq_true, not_false_eq_true, usbd_edpt_xfer, vTaskResume, WR_IDX, List.nil_append]

theorem delivered_run (cfg : Config) :
    ∀ (pkts : List (List Nat)) (s : State), InboundArmed cfg s →
      (∀ p ∈ pkts, p.length ≤ cfg.DAP_PACKET_SIZE) →
      s.USBRequestBuffer.rptr ≤ s.USBRequestBuffer.wptr →
      s.USBRequestBuffer.wptr - s.USBRequestBuffer.rptr + pkts.length < cfg.DAP_PACKET_COUNT →
      s.USBRequestBuffer.wptr + pkts.length < 4294967296 →
      ∃ s1, run cfg s (pkts.map Event.out_done) = some s1 ∧ Delivered cfg s pkts s1 := by
  intro pkts
  induction pkts with
  | nil =>
    intro s ha _ _ _ _
    exact ⟨s, rfl,
      { armed := ha, wptr_eq := rfl, rptr_eq := rfl, not_full := fun h => absurd rfl h,
        same := fun _ => rfl, data_new := fun i hi => absurd hi (by simp),
        data_old := fun _ _ => rfl, pc_eq := rfl, calls_eq := rfl, resp_eq := rfl,
        in_xfers_eq := rfl, resp_len_eq := rfl, in_ep_eq := rfl }⟩
  | cons p ps ih =>
    intro s ha hlen hle hocc hw
    obtain ⟨ep, hd, hq⟩ := ha
    simp only [List.length_cons] at hocc hw
    have hnf := buffer_not_full cfg s.USBRequestBuffer hle (by omega) (by omega)
    have hstep := step_out_done_not_full cfg s ep p hd hq (hlen p (by simp)) hnf
    have hu : u32 (s.USBRequestBuffer.wptr + 1) = s.USBRequestBuffer.wptr + 1 := by
      simp only [u32]; omega
    have e1 : (out_done_admitted cfg s ep p).USBRequestBuffer.wptr =
        s.USBRequestBuffer.wptr + 1 := hu
    have e2 : (out_done_admitted cfg s ep p).USBRequestBuffer.rptr =
        s.USBRequestBuffer.rptr := rfl
    have e3 : (out_done_admitted cfg s ep p).USBRequestBuffer.data =
        Function.update s.USBRequestBuffer.data (s.USBRequestBuffer.wptr % cfg.DAP_PACKET_COUNT)
          (usb_receive (s.USBRequestBuffer.data (s.USBRequestBuffer.wptr % cfg.DAP_PACKET_COUNT))
            p) := rfl
    obtain ⟨s1, hrun, hD⟩ := ih (out_done_admitted cfg s ep p) ⟨ep, hd, rfl⟩
      (fun q hq => hlen q (by simp [hq])) (by rw [e1, e2]; omega) (by rw [e1, e2]; omega)
      (by rw [e1]; omega)
    refine ⟨s1, ?_, ?_⟩
    · simp only [List.map_cons, run, hstep]
      exact hrun
    · have hwp := hD.wptr_eq
      have hrp := hD.rptr_eq
      have hnew := hD.data_new
      have hold := hD.data_old
      rw [e1] at hwp hnew hold
      rw [e2] at hrp
      rw [e3] at hnew hold
      have hne : ∀ i, i < ps.length →
          (s.USBRequestBuffer.wptr + 1 + i) % cfg.DAP_PACKET_COUNT ≠
            s.USBRequestBuffer.wptr % cfg.DAP_PACKET_COUNT := by
        intro i hi
        rw [Nat.add_assoc]
        exact mod_add_ne _ _ _ (by omega) (by omega)
      exact
        { armed := hD.armed
          wptr_eq := by rw [hwp, List.length_cons]; omega
          rptr_eq := hrp
          not_full := fun _ => by
            by_cases hps : ps = []
            · rw [hD.same hps]
              rfl
            · exact hD.not_full hps
          same := fun h => by simp at h
          data_new := by
            intro i hi
            cases i with
            | zero =>
              simp only [Nat.add_zero, List.getD_cons_zero]
              rw [hold _ (fun i hi => (hne i hi).symm)]
              simp
            | succ i =>
              simp only [List.length_cons] at hi
              have e : s.USBRequestBuffer.wptr + (i + 1) = s.USBRequestBuffer.wptr + 1 + i := by
                omega
              rw [e, hnew i (by omega), Function.update_noteq (hne i (by omega))]
              simp
          data_old := by
            intro j hj
            have h0 := hj 0 (by simp)
            rw [hold j (fun i hi => by
              have := hj (i + 1) (by simp only [List.length_cons]; omega)
              rwa [show s.USBRequestBuffer.wptr + (i + 1) = s.USBRequestBuffer.wptr + 1 + i by
                omega] at this)]
            simp only [Nat.add_zero] at h0
            exact Function.update_noteq h0 _ _
          pc_eq := hD.pc_eq
          calls_eq := hD.calls_eq
          resp_eq := hD.resp_eq
          in_xfers_eq := hD.in_xfers_eq
          resp_len_eq := hD.resp_len_eq
          in_ep_eq := hD.in_ep_eq }

theorem bytes_usb_receive (slot : Nat → Nat) (p : List Nat) :
    bytes (usb_receive slot p) p.length = p := by
  unfold bytes usb_receive
  apply List.ext_getElem
  · simp
  · intro i h1 h2
    simp only [List.getElem_map, List.getElem_range]
    have : i < p.length := h2
    simp [this, List.getD_eq_getElem?_getD, List.getElem?_eq_getElem this]

theorem usb_receive_zero (slot : Nat → Nat) (p : List Nat) (h : 0 < p.length) :
    usb_receive slot p 0 = p.getD 0 0 := by
  simp [usb_receive, h]

theorem map_range_getD (pkts : List (List Nat)) :
    (List.range pkts.length).map (fun i => pkts.getD i []) = pkts := by
  apply List.ext_getElem
  · simp
  · intro i h1 h2
    simp [List.getD_eq_getElem?_getD, List.getElem?_eq_getElem h2]


theorem mark_queued_other (cfg : Config) :
    ∀ (k n : Nat) (data : Nat → Nat → Nat) (j : Nat),
      (∀ i, i < k → j ≠ (n + i) % cfg.DAP_PACKET_COUNT) →
      mark_queued cfg k n data j = data j := by
  intro k
  induction k with
  | zero => intro n data j _; rfl
  | succ k ih =>
    intro n data j hj
    simp only [mark_queued]
    rw [ih (n + 1) _ j (fun i hi => by
      have := hj (i + 1) (by omega)
      rwa [show n + (i + 1) = n + 1 + i by omega] at this)]
    have h0 := hj 0 (by omega)
    simp only [Nat.add_zero] at h0
    exact Function.update_noteq h0 _ _

theorem mark_queued_marked (cfg : Config) :
    ∀ (k n : Nat) (data : Nat → Nat → Nat) (i : Nat), i < k → k ≤ cfg.DAP_PACKET_COUNT →
      mark_queued cfg k n data ((n + i) % cfg.DAP_PACKET_COUNT) =
        Function.update (data ((n + i) % cfg.DAP_PACKET_COUNT)) 0
          cfg.ID_DAP_ExecuteCommands := by
  intro k
  induction k with
  | zero => intro n data i hi; omega
  | succ k ih =>
    intro n data i hi hk
    simp only [mark_queued]
    cases i with
    | zero =>
      simp only [Nat.add_zero]
      rw [mark_queued_other cfg k (n + 1) _ _ (fun i hi => by
        rw [Nat.add_assoc]
        exact (mod_add_ne _ _ _ (by omega) (by omega)).symm)]
      simp
    | succ i =>
      rw [show n + (i + 1) = n + 1 + i by omega, ih (n + 1) _ i (by omega) (by omega)]
      have hne : (n + 1 + i) % cfg.DAP_PACKET_COUNT ≠ n % cfg.DAP_PACKET_COUNT := by
        rw [Nat.add_assoc]
        exact mod_add_ne _ _ _ (by omega) (by omega)
      rw [Function.update_noteq hne]

/-- The admission scan over `k` queue-marked packets followed, before the write
cursor, by a packet that is not queue-marked. -/
theorem admission_scan_passes (cfg : Config) (wptr : Nat) (hw : wptr < 4294967296) :
    ∀ (k n fuel : Nat) (data : Nat → Nat → Nat), n + k < wptr → k + 1 ≤ fuel →
      k + 1 ≤ cfg.DAP_PACKET_COUNT →
      (∀ i, i < k → data ((n + i) % cfg.DAP_PACKET_COUNT) 0 = cfg.ID_DAP_QueueCommands) →
      data ((n + k) % cfg.DAP_PACKET_COUNT) 0 ≠ cfg.ID_DAP_QueueCommands →
      admission_scan cfg wptr fuel n data = (mark_queued cfg k n data, none) := by
  intro k
  induction k with
  | zero =>
    intro n fuel data hn hf _ _ hlast
    obtain ⟨f, rfl⟩ : ∃ f, fuel = f + 1 := ⟨fuel - 1, by omega⟩
    have hne : n ≠ wptr := by omega
    simp only [Nat.add_zero] at hlast
    simp [admission_scan, hne, hlast, mark_queued]
  | succ k ih =>
    intro n fuel data hn hf hN hq hlast
    obtain ⟨f, rfl⟩ : ∃ f, fuel = f + 1 := ⟨fuel - 1, by omega⟩
    have hne : n ≠ wptr := by omega
    have h0 := hq 0 (by omega)
    simp only [Nat.add_zero] at h0
    have hu : u32 (n + 1) = n + 1 := by simp only [u32]; omega
    simp only [admission_scan, hne, if_false, h0, if_true, hu, mark_queued]
    have hdiff : ∀ i, i ≤ k →
        (n + 1 + i) % cfg.DAP_PACKET_COUNT ≠ n % cfg.DAP_PACKET_COUNT := by
      intro i hi
      rw [Nat.add_assoc]
      exact mod_add_ne _ _ _ (by omega) (by omega)
    apply ih (n + 1) f _ (by omega) (by omega) (by omega)
    · intro i hi
      rw [Function.update_noteq (hdiff i (by omega))]
      have := hq (i + 1) (by omega)
      rwa [show n + (i + 1) = n + 1 + i by omega] at this
    · rw [Function.update_noteq (hdiff k (le_refl k))]
      rwa [show n + (k + 1) = n + 1 + k by omega] at hlast

theorem bytes_update_zero (f : Nat → Nat) (v n : Nat) :
    bytes (Function.update f 0 v) n = (bytes f n).set 0 v := by
  unfold bytes
  apply List.ext_getElem
  · simp
  · intro i h1 h2
    rw [List.getElem_set]
    simp only [List.getElem_map, List.getElem_range]
    by_cases hi : i = 0
    · subst hi
      simp only [if_true]
      rw [List.getElem_range]
      exact Function.update_same _ _ _
    · have : ¬ 0 = i := fun h => hi h.symm
      simp [hi, this]

theorem getD_mem (pkts : List (List Nat)) (i : Nat) (hi : i < pkts.length) :
    pkts.getD i [] ∈ pkts := by
  rw [List.getD_eq_getElem?_getD, List.getElem?_eq_getElem hi]
  exact List.getElem_mem hi

theorem mod_add_ne_add (N n a b : Nat) (hab : a < b) (hb : b - a < N) :
    (n + b) % N ≠ (n + a) % N := by
  have e : n + b = n + a + (b - a) := by omega
  rw [e]
  exact mod_add_ne _ _ _ (by omega) hb

theorem map_range_snoc (g : Nat → List Nat) (h : List Nat → List Nat) (qs : List (List Nat))
    (t : List Nat) (hq : ∀ i, i < qs.length → g i = h (qs.getD i [])) (ht : g qs.length = t) :
    (List.range (qs.length + 1)).map g = qs.map h ++ [t] := by
  rw [List.range_succ, List.map_append, List.map_singleton, ht]
  congr 1
  conv_rhs => rw [← map_range_getD qs, List.map_map]
  apply List.map_congr_left
  intro i hi
  simp only [List.mem_range] at hi
  simp [hq i hi]


theorem step_out_done_full (cfg : Config) (s : State) (ep : Nat) (pkt : List Nat)
    (hd : tu_edpt_dir ep = TUSB_DIR_OUT)
    (hq : s.out_xfers = [⟨ep, Ring.request, WR_IDX cfg s.USBRequestBuffer, cfg.DAP_PACKET_SIZE⟩])
    (hp : pkt.length ≤ cfg.DAP_PACKET_SIZE) (hf : buffer_full cfg s.USBRequestBuffer = true) :
    step cfg s (Event.out_done pkt) = some (out_done_deferred cfg s pkt) := by
  unfold out_done_deferred
  have hne : ¬ TUSB_DIR_OUT = TUSB_DIR_IN := by decide
  have hx : ¬ pkt.length > cfg.DAP_PACKET_SIZE := by omega
  have hf2 : ∀ d, buffer_full cfg
      { data := d, wptr := s.USBRequestBuffer.wptr, rptr := s.USBRequestBuffer.rptr,
        wasEmpty := s.USBRequestBuffer.wasEmpty, wasFull := s.USBRequestBuffer.wasFull } =
      true := fun _ => hf
  simp only [step, hq, hp, if_true, write_slot, dap_edpt_xfer_cb, hd, hne, if_false, hx, hf2,
    not_true_eq_false, vTaskResume, WR_IDX]

theorem admission_scan_blocks (cfg : Config) (wptr : Nat) (hw : wptr < 4294967296)
    (hN : wptr ≤ cfg.DAP_PACKET_COUNT) :
    ∀ (fuel n : Nat) (data : Nat → Nat → Nat), n ≤ wptr → fuel = wptr - n →
      (∀ i, n ≤ i → i < wptr →
        data (i % cfg.DAP_PACKET_COUNT) 0 = cfg.ID_DAP_QueueCommands) →
      (admission_scan cfg wptr fuel n data).2 = some wptr := by
  intro fuel
  induction fuel with
  | zero =>
    intro n data hn hf _
    have : n = wptr := by omega
    simp [admission_scan, this]
  | succ fuel ih =>
    intro n data hn hf hq
    have hne : n ≠ wptr := by omega
    have h0 := hq n (le_refl n) (by omega)
    have hu : u32 (n + 1) = n + 1 := by simp only [u32]; omega
    simp only [admission_scan, hne, if_false, h0, if_true, hu]
    apply ih (n + 1) _ (by omega) (by omega)
    intro i hi hiw
    have hne2 : i % cfg.DAP_PACKET_COUNT ≠ n % cfg.DAP_PACKET_COUNT := by
      rw [Nat.mod_eq_of_lt (by omega), Nat.mod_eq_of_lt (by omega)]
      omega
    rw [Function.update_noteq hne2]
    exact hq i (by omega) hiw

theorem queue_wait_opened (cfg : Config) (s : State) (hN : 0 < cfg.DAP_PACKET_COUNT)
    (h : Opened cfg s) : QueueWait cfg s := by
  obtain ⟨s0, itf, edpt, max_len, ho, hi, hpc, hc, hd0, hd1, hok, rfl⟩ := h
  rw [dap_edpt_open_ok cfg s0 itf edpt max_len hok, usbd_edpt_xfer_out _ _ _ _ _ hd0]
  constructor <;> simp [usbd_edpt_open, ho, hi, hpc, hc, scan_start, InboundArmed, WR_IDX, hN, hd0]

theorem queue_wait_worker (cfg : Config) (s : State) (hN : cfg.DAP_PACKET_COUNT ≤ 4294967296)
    (h : QueueWait cfg s) : QueueWait cfg (worker_iter cfg s) := by
  unfold worker_iter
  split
  · exact h
  · have hlt := h.wptr_lt
    have hle := h.scan_le
    have hscan := admission_scan_blocks cfg s.USBRequestBuffer.wptr (by omega) (by omega)
      (u32 (s.USBRequestBuffer.wptr + 4294967296 - scan_start s)) (scan_start s)
      s.USBRequestBuffer.data hle (by simp only [u32]; omega) h.queued
    simp only [hscan]
    exact
      { calls_nil := h.calls_nil, rptr_zero := h.rptr_zero, wptr_lt := h.wptr_lt,
        in_nil := h.in_nil, armed := h.armed, idle_full := h.idle_full,
        scan_le := le_refl _,
        queued := fun i hi hiw => by
          have hi2 : s.USBRequestBuffer.wptr ≤ i := hi
          have hiw2 : i < s.USBRequestBuffer.wptr := hiw
          omega }

theorem queue_wait_step (cfg : Config) (s s1 : State) (e : Event)
    (hN : cfg.DAP_PACKET_COUNT ≤ 4294967296) (h : QueueWait cfg s) (he : QueueEvent cfg e)
    (hs : step cfg s e = some s1) : QueueWait cfg s1 := by
  cases e with
  | worker =>
    simp only [step, Option.some.injEq] at hs
    subst hs
    exact queue_wait_worker cfg s hN h
  | in_done =>
    simp [step, h.in_nil] at hs
  | out_done pkt =>
    obtain ⟨hp0, hpq⟩ := he
    have hF : s.USBRequestBuffer.wasFull = false := by
      cases hf : s.USBRequestBuffer.wasFull
      · rfl
      · simp [step, h.idle_full hf] at hs
    obtain ⟨ep, hd, hq⟩ := h.armed hF
    have hplen : pkt.length ≤ cfg.DAP_PACKET_SIZE := by
      by_contra hc
      simp [step, hq, hc] at hs
    have hlt := h.wptr_lt
    have hr := h.rptr_zero
    have hwmod : s.USBRequestBuffer.wptr % cfg.DAP_PACKET_COUNT = s.USBRequestBuffer.wptr :=
      Nat.mod_eq_of_lt hlt
    cases hfull : buffer_full cfg s.USBRequestBuffer
    · rw [step_out_done_not_full cfg s ep pkt hd hq hplen hfull] at hs
      simp only [Option.some.injEq] at hs
      subst hs
      have hw1 : s.USBRequestBuffer.wptr + 1 < cfg.DAP_PACKET_COUNT := by
        simp only [buffer_full, hr, beq_eq_false_iff_ne, ne_eq, u32] at hfull
        by_contra hc
        have e : s.USBRequestBuffer.wptr + 1 = cfg.DAP_PACKET_COUNT := by omega
        by_cases h32 : cfg.DAP_PACKET_COUNT = 4294967296
        · apply hfull
          rw [e, h32]
        · apply hfull
          rw [Nat.mod_eq_of_lt (show s.USBRequestBuffer.wptr + 1 < 4294967296 by omega), e,
            Nat.mod_self]
      have hu : u32 (s.USBRequestBuffer.wptr + 1) = s.USBRequestBuffer.wptr + 1 := by
        simp only [u32]; omega
      exact
        { calls_nil := h.calls_nil
          rptr_zero := h.rptr_zero
          wptr_lt := by simp only [out_done_admitted, hu]; exact hw1
          in_nil := h.in_nil
          armed := fun _ => ⟨ep, hd, rfl⟩
          idle_full := fun hc => by simp [out_done_admitted] at hc
          scan_le := by
            have := h.scan_le
            simp only [out_done_admitted, hu, scan_start] at this ⊢
            omega
          queued := by
            intro i hi hiw
            have hi2 : scan_start s ≤ i := hi
            simp only [out_done_admitted, hu, WR_IDX] at hiw ⊢
            by_cases hiw2 : i = s.USBRequestBuffer.wptr
            · subst hiw2
              rw [Function.update_same, usb_receive_zero _ _ hp0]
              exact hpq
            · have hne : i % cfg.DAP_PACKET_COUNT ≠
                  s.USBRequestBuffer.wptr % cfg.DAP_PACKET_COUNT := by
                rw [hwmod, Nat.mod_eq_of_lt (by omega)]
                exact hiw2
              rw [Function.update_noteq hne]
              exact h.queued i hi2 (by omega) }
    · rw [step_out_done_full cfg s ep pkt hd hq hplen hfull] at hs
      simp only [Option.some.injEq] at hs
      subst hs
      exact
        { calls_nil := h.calls_nil
          rptr_zero := h.rptr_zero
          wptr_lt := h.wptr_lt
          in_nil := h.in_nil
          armed := fun hc => by simp [out_done_deferred] at hc
          idle_full := fun _ => rfl
          scan_le := h.scan_le
          queued := by
            intro i hi hiw
            have hi2 : scan_start s ≤ i := hi
            have hiw2 : i < s.USBRequestBuffer.wptr := hiw
            simp only [out_done_deferred, WR_IDX]
            have hne : i % cfg.DAP_PACKET_COUNT ≠
                s.USBRequestBuffer.wptr % cfg.DAP_PACKET_COUNT := by
              rw [hwmod, Nat.mod_eq_of_lt (by omega)]
              omega
            rw [Function.update_noteq hne]
            exact h.queued i hi2 hiw2 }

theorem queue_wait_run (cfg : Config) (hN : cfg.DAP_PACKET_COUNT ≤ 4294967296) :
    ∀ (evs : List Event) (s s1 : State), QueueWait cfg s → (∀ e ∈ evs, QueueEvent cfg e) →
      run cfg s evs = some s1 → QueueWait cfg s1 := by
  intro evs
  induction evs with
  | nil =>
    intro s s1 h _ hr
    simp only [run, Option.some.injEq] at hr
    subst hr
    exact h
  | cons e es ih =>
    intro s s1 h he hr
    simp only [run] at hr
    split at hr
    · simp at hr
    · rename_i s2 hs
      exact ih s2 s1 (queue_wait_step cfg s s2 e hN h (he e (by simp)) hs)
        (fun e2 h2 => he e2 (by simp [h2])) hr


theorem usbd_edpt_xfer_request (s : State) (ep_addr : Nat) (ring : Ring) (slot len : Nat) :
    (usbd_edpt_xfer s ep_addr ring slot len).USBRequestBuffer = s.USBRequestBuffer :=
  (usbd_edpt_xfer_frame s ep_addr ring slot len).1

theorem usbd_edpt_xfer_log (s : State) (ep_addr : Nat) (ring : Ring) (slot len : Nat) :
    (usbd_edpt_xfer s ep_addr ring slot len).xfer_log =
      s.xfer_log ++ [⟨ep_addr, ring, slot, len⟩] :=
  (usbd_edpt_xfer_frame s ep_addr ring slot len).2.2.1

/-- What `rearm_request` does when `wasFull` is set. -/
theorem rearm_request_was_full (cfg : Config) (s : State)
    (hF : s.USBRequestBuffer.wasFull = true) :
    (rearm_request cfg s).USBRequestBuffer =
      { s.USBRequestBuffer with
        wptr := u32 (s.USBRequestBuffer.wptr + 1), wasFull := false } ∧
    (rearm_request cfg s).xfer_log =
      s.xfer_log ++
        [⟨s._out_ep_addr, Ring.request,
          u32 (s.USBRequestBuffer.wptr + 1) % cfg.DAP_PACKET_COUNT, cfg.DAP_PACKET_SIZE⟩] := by
  unfold rearm_request
  simp [hF, usbd_edpt_xfer_request, usbd_edpt_xfer_log, WR_IDX]

/-- One drained packet when the out callback had found the ring full: the
worker re-arms the inbound endpoint. -/
theorem drain_packet_was_full (cfg : Config) (s : State)
    (hF : s.USBRequestBuffer.wasFull = true) :
    (drain_packet cfg s).USBRequestBuffer =
      { s.USBRequestBuffer with
        rptr := u32 (s.USBRequestBuffer.rptr + 1),
        wptr := u32 (s.USBRequestBuffer.wptr + 1),
        wasFull := false } ∧
    ∃ tail, (drain_packet cfg s).xfer_log =
        s.xfer_log ++
          ⟨s._out_ep_addr, Ring.request,
            u32 (s.USBRequestBuffer.wptr + 1) % cfg.DAP_PACKET_COUNT, cfg.DAP_PACKET_SIZE⟩ ::
            tail ∧
      ∀ y ∈ tail, y.ring = Ring.response := by
  unfold drain_packet
  simp only []
  obtain ⟨p1, -, -, -, -, -, -, tail, p8, p9⟩ := publish_response_frame cfg
    (execute_command cfg (rearm_request cfg
      { s with
        DAPRequestBuffer :=
          memcpy s.DAPRequestBuffer (s.USBRequestBuffer.data (RD_IDX cfg s.USBRequestBuffer))
            cfg.DAP_PACKET_SIZE,
        USBRequestBuffer :=
          { s.USBRequestBuffer with rptr := u32 (s.USBRequestBuffer.rptr + 1) } }))
  obtain ⟨r1, r2⟩ := rearm_request_was_full cfg
      { s with
        DAPRequestBuffer :=
          memcpy s.DAPRequestBuffer (s.USBRequestBuffer.data (RD_IDX cfg s.USBRequestBuffer))
            cfg.DAP_PACKET_SIZE,
        USBRequestBuffer :=
          { s.USBRequestBuffer with rptr := u32 (s.USBRequestBuffer.rptr + 1) } } hF
  rw [p1, p8]
  simp only [execute_command]
  rw [r1, r2]
  exact ⟨rfl, tail, by simp, p9⟩


theorem usbd_edpt_xfer_response (s : State) (ep_addr : Nat) (ring : Ring) (slot len : Nat) :
    (usbd_edpt_xfer s ep_addr ring slot len).USBResponseBuffer = s.USBResponseBuffer :=
  (usbd_edpt_xfer_frame s ep_addr ring slot len).2.1

theorem usbd_edpt_xfer_calls (s : State) (ep_addr : Nat) (ring : Ring) (slot len : Nat) :
    (usbd_edpt_xfer s ep_addr ring slot len).calls = s.calls :=
  (usbd_edpt_xfer_frame s ep_addr ring slot len).2.2.2.1

theorem usbd_edpt_xfer_resp_len (s : State) (ep_addr : Nat) (ring : Ring) (slot len : Nat) :
    (usbd_edpt_xfer s ep_addr ring slot len)._resp_len = s._resp_len :=
  (usbd_edpt_xfer_frame s ep_addr ring slot len).2.2.2.2.2.1

theorem dap_edpt_xfer_cb_frame (cfg : Config) (s : State) (ep_addr xferred_bytes : Nat) :
    (dap_edpt_xfer_cb cfg s ep_addr xferred_bytes).2.calls = s.calls ∧
    (dap_edpt_xfer_cb cfg s ep_addr xferred_bytes).2._resp_len = s._resp_len ∧
    (dap_edpt_xfer_cb cfg s ep_addr xferred_bytes).2.USBResponseBuffer.wptr =
      s.USBResponseBuffer.wptr := by
  unfold dap_edpt_xfer_cb
  simp only []
  split
  · split
    · exact ⟨rfl, rfl, rfl⟩
    · split
      · simp only [vTaskResume, usbd_edpt_xfer_calls, usbd_edpt_xfer_resp_len,
          usbd_edpt_xfer_response, and_self]
      · exact ⟨rfl, rfl, rfl⟩
  · split
    · split
      · exact ⟨rfl, rfl, rfl⟩
      · split
        · simp only [vTaskResume, usbd_edpt_xfer_calls, usbd_edpt_xfer_resp_len,
            usbd_edpt_xfer_response, and_self]
        · exact ⟨rfl, rfl, rfl⟩
    · exact ⟨rfl, rfl, rfl⟩

theorem publish_response_wptr (cfg : Config) (s : State) :
    (publish_response cfg s).USBResponseBuffer.wptr = u32 (s.USBResponseBuffer.wptr + 1) := by
  unfold publish_response
  simp only []
  split
  · rw [(usbd_edpt_xfer_frame _ _ _ _ _).2.1]
  · rfl

theorem rearm_request_frame (cfg : Config) (s : State) :
    (rearm_request cfg s).calls = s.calls ∧
    (rearm_request cfg s).DAPRequestBuffer = s.DAPRequestBuffer ∧
    (rearm_request cfg s).USBResponseBuffer = s.USBResponseBuffer := by
  unfold rearm_request
  split
  · simp only []
    obtain ⟨-, f2, -, f4, -, -, -, -, -, f10, -⟩ := usbd_edpt_xfer_frame
      { s with USBRequestBuffer :=
          { s.USBRequestBuffer with wptr := u32 (s.USBRequestBuffer.wptr + 1) } }
      s._out_ep_addr Ring.request
      (WR_IDX cfg { s.USBRequestBuffer with wptr := u32 (s.USBRequestBuffer.wptr + 1) })
      cfg.DAP_PACKET_SIZE
    exact ⟨f4, f10, f2⟩
  · exact ⟨rfl, rfl, rfl⟩

/-- The interpreter log after one drained packet. -/
theorem drain_packet_calls (cfg : Config) (s : State) :
    (drain_packet cfg s).calls =
      s.calls ++
        [(bytes (s.USBRequestBuffer.data (RD_IDX cfg s.USBRequestBuffer)) cfg.DAP_PACKET_SIZE,
          (drain_packet cfg s)._resp_len)] ∧
    (drain_packet cfg s).USBResponseBuffer.wptr = u32 (s.USBResponseBuffer.wptr + 1) := by
  unfold drain_packet
  simp only []
  obtain ⟨-, p2, -, p4, -⟩ := publish_response_frame cfg
    (execute_command cfg (rearm_request cfg
      { s with
        DAPRequestBuffer :=
          memcpy s.DAPRequestBuffer (s.USBRequestBuffer.data (RD_IDX cfg s.USBRequestBuffer))
            cfg.DAP_PACKET_SIZE,
        USBRequestBuffer :=
          { s.USBRequestBuffer with rptr := u32 (s.USBRequestBuffer.rptr + 1) } }))
  obtain ⟨r1, r2, r3⟩ := rearm_request_frame cfg
      { s with
        DAPRequestBuffer :=
          memcpy s.DAPRequestBuffer (s.USBRequestBuffer.data (RD_IDX cfg s.USBRequestBuffer))
            cfg.DAP_PACKET_SIZE,
        USBRequestBuffer :=
          { s.USBRequestBuffer with rptr := u32 (s.USBRequestBuffer.rptr + 1) } }
  rw [p2, p4, publish_response_wptr]
  simp only [execute_command]
  rw [r1, r2, r3]
  simp only [bytes_memcpy]
  exact ⟨trivial, trivial⟩

theorem call_log_opened (cfg : Config) (s : State) (h : Opened cfg s) : CallLog s := by
  obtain ⟨s0, itf, edpt, max_len, ho, hi, hpc, hc, hd0, hd1, hok, rfl⟩ := h
  rw [dap_edpt_open_ok cfg s0 itf edpt max_len hok, usbd_edpt_xfer_out _ _ _ _ _ hd0]
  constructor <;> simp [usbd_edpt_open, hc]

theorem call_log_step (cfg : Config) (k : Nat) (s s1 : State) (e : Event) (hI : Inv k s)
    (h : CallLog s) (hk : k + 1 < 4294967296) (hs : step cfg s e = some s1) : CallLog s1 := by
  cases e with
  | out_done pkt =>
    simp only [step] at hs
    split at hs
    · simp at hs
    · rename_i x rest hq
      split at hs
      · simp only [Option.some.injEq] at hs
        subst hs
        obtain ⟨c1, c2, c3⟩ := dap_edpt_xfer_cb_frame cfg
          (write_slot { s with out_xfers := rest } x pkt) x.ep_addr pkt.length
        obtain ⟨-, -, -, -, -, w6, -, -, w9, -, -, -, -, w14, -⟩ :=
          write_slot_fields { s with out_xfers := rest } x pkt
        exact ⟨by rw [c1, c3, w6, w14]; exact h.len_eq, by rw [c1, c2, w6, w9]; exact h.last⟩
      · simp at hs
  | in_done =>
    simp only [step] at hs
    split at hs
    · simp at hs
    · rename_i x rest hq
      simp only [Option.some.injEq] at hs
      subst hs
      obtain ⟨c1, c2, c3⟩ := dap_edpt_xfer_cb_frame cfg { s with in_xfers := rest } x.ep_addr
        x.len
      exact ⟨by rw [c1, c3]; exact h.len_eq, by rw [c1, c2]; exact h.last⟩
  | worker =>
    simp only [step, Option.some.injEq] at hs
    subst hs
    unfold worker_iter
    split
    · exact h
    · simp only []
      split
      · exact ⟨h.len_eq, h.last⟩
      · obtain ⟨d1, d2⟩ := drain_packet_calls cfg
          { s with
            USBRequestBuffer :=
              { s.USBRequestBuffer with
                data := (admission_scan cfg s.USBRequestBuffer.wptr
                  (u32 (s.USBRequestBuffer.wptr + 4294967296 - scan_start s)) (scan_start s)
                  s.USBRequestBuffer.data).1 },
            pc := Pc.loop }
        have hb := hI.req_bound
        have hle := hI.req_le
        have heq := hI.resp_eq
        have hlen := h.len_eq
        constructor
        · rw [d1, d2]
          simp only [List.length_append, List.length_singleton, u32]
          omega
        · intro c hc
          rw [d1] at hc
          rw [List.getLast?_concat] at hc
          simp only [Option.some.injEq] at hc
          rw [← hc]

theorem call_log_run (cfg : Config) : ∀ (evs : List Event) (k : Nat) (s s1 : State), Inv k s →
    CallLog s → k + evs.length < 4294967296 → run cfg s evs = some s1 → CallLog s1 := by
  intro evs
  induction evs with
  | nil =>
    intro k s s1 _ h _ hr
    simp only [run, Option.some.injEq] at hr
    subst hr
    exact h
  | cons e es ih =>
    intro k s s1 hI h hk hr
    simp only [List.length_cons] at hk
    simp only [run] at hr
    split at hr
    · simp at hr
    · rename_i s2 hs
      exact ih (k + 1) s2 s1 (inv_step cfg k s s2 e hI (by omega) hs)
        (call_log_step cfg k s s2 e hI h (by omega) hs) (by omega) hr

theorem call_log_reachable (cfg : Config) (evs : List Event) (s : State)
    (h : ReachableBy cfg evs s) (hlen : evs.length < 4294967296) : CallLog s := by
  obtain ⟨s1, ho, hr⟩ := h
  exact call_log_run cfg evs 0 s1 s (inv_opened cfg s1 ho) (call_log_opened cfg s1 ho)
    (by omega) hr

theorem bytes_take (f : Nat → Nat) (m n : Nat) (h : m ≤ n) : (bytes f n).take m = bytes f m := by
  unfold bytes
  rw [← List.map_take, List.take_range, Nat.min_eq_left h]

theorem received_starts_with_packet (cfg : Config) (data : Nat → Nat → Nat) (w : Nat)
    (pkts : List (List Nat)) (hsize : ∀ p ∈ pkts, p.length ≤ cfg.DAP_PACKET_SIZE) :
    ∀ i, i < pkts.length →
      ((received cfg data w pkts).getD i []).length = cfg.DAP_PACKET_SIZE ∧
      ((received cfg data w pkts).getD i []).take (pkts.getD i []).length = pkts.getD i [] := by
  intro i hi
  have hlen : i < (received cfg data w pkts).length := by simp [received, hi]
  have e : (received cfg data w pkts).getD i [] =
      bytes (usb_receive (data ((w + i) % cfg.DAP_PACKET_COUNT)) (pkts.getD i []))
        cfg.DAP_PACKET_SIZE := by
    rw [List.getD_eq_getElem?_getD, List.getElem?_eq_getElem hlen]
    simp [received]
  rw [e]
  constructor
  · simp [bytes]
  · rw [bytes_take _ _ _ (hsize _ (getD_mem pkts i hi)), bytes_usb_receive]

theorem received_full_size (cfg : Config) (data : Nat → Nat → Nat) (w : Nat)
    (pkts : List (List Nat)) (hsize : ∀ p ∈ pkts, p.length = cfg.DAP_PACKET_SIZE) :
    received cfg data w pkts = pkts := by
  unfold received
  conv_rhs => rw [← map_range_getD pkts]
  apply List.map_congr_left
  intro i hi
  simp only [List.mem_range] at hi
  rw [← hsize _ (getD_mem pkts i hi), bytes_usb_receive]

theorem usb_receive_set_zero (slot : Nat → Nat) (q : List Nat) (v : Nat) (h : 0 < q.length) :
    usb_receive slot (q.set 0 v) = Function.update (usb_receive slot q) 0 v := by
  funext j
  unfold usb_receive
  by_cases hj : j = 0
  · subst hj
    simp [h, List.getD_eq_getElem?_getD]
  · rw [Function.update_noteq hj]
    simp only [List.length_set]
    split
    · rename_i hlt
      simp [List.getD_eq_getElem?_getD, List.getElem?_set, hlt, Ne.symm hj]
    · rfl


theorem demo_opened : Opened demo_cfg demo_open :=
  ⟨boot, demo_itf, demo_edpt, 23, rfl, rfl, rfl, rfl, by decide, by decide,
    ⟨rfl, rfl, rfl, by decide⟩, rfl⟩

/-- The request ring after one drained packet: the read cursor has advanced by
one, the stored packets are untouched. -/
theorem drain_packet_request (cfg : Config) (s : State) :
    (drain_packet cfg s).USBRequestBuffer.rptr = u32 (s.USBRequestBuffer.rptr + 1) ∧
    (drain_packet cfg s).USBRequestBuffer.data = s.USBRequestBuffer.data := by
  cases hF : s.USBRequestBuffer.wasFull
  · rw [(drain_packet_not_full cfg s hF).1]
    exact ⟨rfl, rfl⟩
  · rw [(drain_packet_was_full cfg s hF).1]
    exact ⟨rfl, rfl⟩

theorem dap_edpt_xfer_cb_request_rptr (cfg : Config) (s : State) (ep_addr xferred_bytes : Nat) :
    (dap_edpt_xfer_cb cfg s ep_addr xferred_bytes).2.USBRequestBuffer.rptr =
      s.USBRequestBuffer.rptr := by
  unfold dap_edpt_xfer_cb
  simp only []
  split
  · split
    · rfl
    · split
      · simp only [vTaskResume, usbd_edpt_xfer_request]
      · rfl
  · split
    · split
      · rfl
      · split
        · simp only [vTaskResume, usbd_edpt_xfer_request]
        · rfl
    · rfl

/-- What one worker pass does to the read cursor, the interpreter log and the
response write cursor: nothing when the worker is blocked or suspends inside
the admission scan, one step each otherwise. -/
theorem worker_iter_drain (cfg : Config) (s : State) :
    ((worker_blocked s = true ∨
        (admission_scan cfg s.USBRequestBuffer.wptr
          (u32 (s.USBRequestBuffer.wptr + 4294967296 - scan_start s)) (scan_start s)
          s.USBRequestBuffer.data).2 ≠ none) →
      (worker_iter cfg s).USBRequestBuffer.rptr = s.USBRequestBuffer.rptr ∧
      (worker_iter cfg s).calls = s.calls ∧
      (worker_iter cfg s).USBResponseBuffer.wptr = s.USBResponseBuffer.wptr) ∧
    (worker_blocked s = false →
      (admission_scan cfg s.USBRequestBuffer.wptr
          (u32 (s.USBRequestBuffer.wptr + 4294967296 - scan_start s)) (scan_start s)
          s.USBRequestBuffer.data).2 = none →
      (worker_iter cfg s).USBRequestBuffer.rptr = u32 (s.USBRequestBuffer.rptr + 1) ∧
      (worker_iter cfg s).calls =
        s.calls ++
          [(bytes ((worker_iter cfg s).USBRequestBuffer.data (RD_IDX cfg s.USBRequestBuffer))
              cfg.DAP_PACKET_SIZE,
            (worker_iter cfg s)._resp_len)] ∧
      (worker_iter cfg s).USBResponseBuffer.wptr = u32 (s.USBResponseBuffer.wptr + 1)) := by
  constructor
  · intro h
    unfold worker_iter
    split
    · exact ⟨rfl, rfl, rfl⟩
    · rename_i hnb
      simp only []
      split
      · exact ⟨rfl, rfl, rfl⟩
      · rename_i hnone
        rcases h with h | h
        · exact absurd h hnb
        · exact absurd hnone h
  · intro hnb hnone
    have hiter : worker_iter cfg s = drain_packet cfg
        { s with
          USBRequestBuffer :=
            { s.USBRequestBuffer with
              data := (admission_scan cfg s.USBRequestBuffer.wptr
                (u32 (s.USBRequestBuffer.wptr + 4294967296 - scan_start s)) (scan_start s)
                s.USBRequestBuffer.data).1 },
          pc := Pc.loop } := by
      unfold worker_iter
      simp only [hnb, Bool.false_eq_true, if_false, hnone]
    obtain ⟨d1, d2⟩ := drain_packet_calls cfg
        { s with
          USBRequestBuffer :=
            { s.USBRequestBuffer with
              data := (admission_scan cfg s.USBRequestBuffer.wptr
                (u32 (s.USBRequestBuffer.wptr + 4294967296 - scan_start s)) (scan_start s)
                s.USBRequestBuffer.data).1 },
          pc := Pc.loop }
    obtain ⟨r1, r2⟩ := drain_packet_request cfg
        { s with
          USBRequestBuffer :=
            { s.USBRequestBuffer with
              data := (admission_scan cfg s.USBRequestBuffer.wptr
                (u32 (s.USBRequestBuffer.wptr + 4294967296 - scan_start s)) (scan_start s)
                s.USBRequestBuffer.data).1 },
          pc := Pc.loop }
    rw [← hiter] at d1 d2 r1 r2
    refine ⟨r1, ?_, d2⟩
    rw [r2]
    exact d1

/-- The response write cursor equals the request read cursor: preserved by
every step. -/
theorem cursor_link_step (cfg : Config) (s s1 : State) (e : Event)
    (h : s.USBResponseBuffer.wptr = s.USBRequestBuffer.rptr)
    (hs : step cfg s e = some s1) :
    s1.USBResponseBuffer.wptr = s1.USBRequestBuffer.rptr := by
  cases e with
  | out_done pkt =>
    simp only [step] at hs
    split at hs
    · simp at hs
    · rename_i x rest hq
      split at hs
      · simp only [Option.some.injEq] at hs
        subst hs
        obtain ⟨-, -, -, -, -, -, -, -, -, -, w11, -, -, w14, -⟩ :=
          write_slot_fields { s with out_xfers := rest } x pkt
        rw [(dap_edpt_xfer_cb_frame cfg _ _ _).2.2, dap_edpt_xfer_cb_request_rptr, w11, w14]
        exact h
      · simp at hs
  | in_done =>
    simp only [step] at hs
    split at hs
    · simp at hs
    · rename_i x rest hq
      simp only [Option.some.injEq] at hs
      subst hs
      rw [(dap_edpt_xfer_cb_frame cfg _ _ _).2.2, dap_edpt_xfer_cb_request_rptr]
      exact h
  | worker =>
    simp only [step, Option.some.injEq] at hs
    subst hs
    obtain ⟨w1, w2⟩ := worker_iter_drain cfg s
    cases hb : worker_blocked s
    · cases hn : (admission_scan cfg s.USBRequestBuffer.wptr
          (u32 (s.USBRequestBuffer.wptr + 4294967296 - scan_start s)) (scan_start s)
          s.USBRequestBuffer.data).2
      · obtain ⟨a, -, c⟩ := w2 hb hn
        rw [a, c, h]
      · obtain ⟨a, -, c⟩ := w1 (Or.inr (by rw [hn]; simp))
        rw [a, c, h]
    · obtain ⟨a, -, c⟩ := w1 (Or.inl hb)
      rw [a, c, h]

theorem cursor_link_run (cfg : Config) : ∀ (evs : List Event) (s s1 : State),
    s.USBResponseBuffer.wptr = s.USBRequestBuffer.rptr → run cfg s evs = some s1 →
    s1.USBResponseBuffer.wptr = s1.USBRequestBuffer.rptr := by
  intro evs
  induction evs with
  | nil =>
    intro s s1 h hr
    simp only [run, Option.some.injEq] at hr
    subst hr
    exact h
  | cons e es ih =>
    intro s s1 h hr
    simp only [run] at hr
    split at hr
    · simp at hr
    · rename_i s2 hs
      exact ih s2 s1 (cursor_link_step cfg s s2 e h hs) hr


/-- What the admission scan changes in the request storage: nothing but byte 0
of slots whose byte 0 was the queue marker, which becomes the execute marker;
the slots are those of cursors from the scan cursor up to the write cursor. -/
theorem admission_scan_frame (cfg : Config) (wptr : Nat) (hw : wptr < 4294967296) :
    ∀ (fuel n : Nat) (data : Nat → Nat → Nat) (i j : Nat), n ≤ wptr →
      (admission_scan cfg wptr fuel n data).1 i j ≠ data i j →
        j = 0 ∧ data i 0 = cfg.ID_DAP_QueueCommands ∧
        (admission_scan cfg wptr fuel n data).1 i 0 = cfg.ID_DAP_ExecuteCommands ∧
        ∃ m, n ≤ m ∧ m < wptr ∧ i = m % cfg.DAP_PACKET_COUNT := by
  intro fuel
  induction fuel with
  | zero =>
    intro n data i j _ hne
    exact absurd rfl hne
  | succ fuel ih =>
    intro n data i j hn hne
    unfold admission_scan at hne ⊢
    by_cases h1 : n = wptr
    · simp only [h1, if_true] at hne
      exact absurd rfl hne
    · simp only [h1, if_false] at hne ⊢
      by_cases h2 : data (n % cfg.DAP_PACKET_COUNT) 0 = cfg.ID_DAP_QueueCommands
      · simp only [h2, if_true] at hne ⊢
        have hu : u32 (n + 1) = n + 1 := by simp only [u32]; omega
        rw [hu] at hne ⊢
        by_cases h3 : (admission_scan cfg wptr fuel (n + 1)
            (Function.update data (n % cfg.DAP_PACKET_COUNT)
              (Function.update (data (n % cfg.DAP_PACKET_COUNT)) 0
                cfg.ID_DAP_ExecuteCommands))).1 i j =
            (Function.update data (n % cfg.DAP_PACKET_COUNT)
              (Function.update (data (n % cfg.DAP_PACKET_COUNT)) 0
                cfg.ID_DAP_ExecuteCommands)) i j
        · -- the change happened at this step
          rw [h3] at hne
          have hi : i = n % cfg.DAP_PACKET_COUNT := by
            by_contra hc
            rw [Function.update_noteq hc] at hne
            exact hne rfl
          subst hi
          rw [Function.update_same] at hne
          have hj : j = 0 := by
            by_contra hc
            rw [Function.update_noteq hc] at hne
            exact hne rfl
          subst hj
          refine ⟨rfl, h2, ?_, n, le_refl n, by omega, rfl⟩
          rw [h3]
          simp
        · obtain ⟨a, b, c, m, m1, m2, m3⟩ := ih (n + 1) _ i j (by omega) h3
          refine ⟨a, ?_, c, m, by omega, m2, m3⟩
          by_cases hi : i = n % cfg.DAP_PACKET_COUNT
          · rw [hi]; exact h2
          · rw [Function.update_noteq hi] at b
            exact b
      · simp only [h2, if_false] at hne
        exact absurd rfl hne

/-- A worker pass that starts at the top of the inner loop and completes hands
the interpreter a packet whose command byte is not the queue marker, when the
two markers differ. -/
theorem worker_iter_from_loop_no_marker (cfg : Config) (s : State)
    (hQE : cfg.ID_DAP_QueueCommands ≠ cfg.ID_DAP_ExecuteCommands)
    (hpc : s.pc = Pc.loop) (hw : s.USBRequestBuffer.wptr < 4294967296)
    (hle : s.USBRequestBuffer.rptr ≤ s.USBRequestBuffer.wptr)
    (hnb : worker_blocked s = false)
    (hnone : (admission_scan cfg s.USBRequestBuffer.wptr
      (u32 (s.USBRequestBuffer.wptr + 4294967296 - scan_start s)) (scan_start s)
      s.USBRequestBuffer.data).2 = none) :
    (worker_iter cfg s).USBRequestBuffer.data (RD_IDX cfg s.USBRequestBuffer) 0 ≠
      cfg.ID_DAP_QueueCommands := by
  have hiter : worker_iter cfg s = drain_packet cfg
      { s with
        USBRequestBuffer :=
          { s.USBRequestBuffer with
            data := (admission_scan cfg s.USBRequestBuffer.wptr
              (u32 (s.USBRequestBuffer.wptr + 4294967296 - scan_start s)) (scan_start s)
              s.USBRequestBuffer.data).1 },
        pc := Pc.loop } := by
    unfold worker_iter
    simp only [hnb, Bool.false_eq_true, if_false, hnone]
  rw [hiter, (drain_packet_request cfg _).2]
  have hstart : scan_start s = s.USBRequestBuffer.rptr := by
    unfold scan_start; rw [hpc]
  have hlt : s.USBRequestBuffer.rptr < s.USBRequestBuffer.wptr := by
    simp only [worker_blocked, hpc, beq_eq_false_iff_ne, ne_eq] at hnb
    omega
  rw [hstart]
  simp only [RD_IDX]
  obtain ⟨f, hf⟩ : ∃ f, u32 (s.USBRequestBuffer.wptr + 4294967296 - s.USBRequestBuffer.rptr) =
      f + 1 := ⟨s.USBRequestBuffer.wptr - s.USBRequestBuffer.rptr - 1, by simp only [u32]; omega⟩
  rw [hf]
  by_cases hq : s.USBRequestBuffer.data (s.USBRequestBuffer.rptr % cfg.DAP_PACKET_COUNT) 0 =
      cfg.ID_DAP_QueueCommands
  · have hu : u32 (s.USBRequestBuffer.rptr + 1) = s.USBRequestBuffer.rptr + 1 := by
      simp only [u32]; omega
    have hne : s.USBRequestBuffer.rptr ≠ s.USBRequestBuffer.wptr := by omega
    simp only [admission_scan, hne, if_false, hq, if_true, hu]
    by_cases hc : (admission_scan cfg s.USBRequestBuffer.wptr f (s.USBRequestBuffer.rptr + 1)
        (Function.update s.USBRequestBuffer.data (s.USBRequestBuffer.rptr % cfg.DAP_PACKET_COUNT)
          (Function.update
            (s.USBRequestBuffer.data (s.USBRequestBuffer.rptr % cfg.DAP_PACKET_COUNT)) 0
            cfg.ID_DAP_ExecuteCommands))).1 (s.USBRequestBuffer.rptr % cfg.DAP_PACKET_COUNT) 0 =
        (Function.update s.USBRequestBuffer.data (s.USBRequestBuffer.rptr % cfg.DAP_PACKET_COUNT)
          (Function.update
            (s.USBRequestBuffer.data (s.USBRequestBuffer.rptr % cfg.DAP_PACKET_COUNT)) 0
            cfg.ID_DAP_ExecuteCommands)) (s.USBRequestBuffer.rptr % cfg.DAP_PACKET_COUNT) 0
    · rw [hc]
      simp only [Function.update_same]
      exact fun h => hQE h.symm
    · have := (admission_scan_frame cfg s.USBRequestBuffer.wptr hw f
        (s.USBRequestBuffer.rptr + 1) _ _ _ (by omega) hc).2.2.1
      rw [this]
      exact fun h => hQE h.symm
  · have hne : s.USBRequestBuffer.rptr ≠ s.USBRequestBuffer.wptr := by omega
    simp only [admission_scan, hne, if_false, hq]
    exact hq


/-- A worker pass that suspends inside the admission scan changes the request
storage and its own control point, and nothing else. -/
theorem worker_iter_suspended (cfg : Config) (s : State) (m : Nat)
    (hnb : worker_blocked s = false)
    (hm : (admission_scan cfg s.USBRequestBuffer.wptr
      (u32 (s.USBRequestBuffer.wptr + 4294967296 - scan_start s)) (scan_start s)
      s.USBRequestBuffer.data).2 = some m) :
    worker_iter cfg s =
      { s with
        USBRequestBuffer :=
          { s.USBRequestBuffer with
            data := (admission_scan cfg s.USBRequestBuffer.wptr
              (u32 (s.USBRequestBuffer.wptr + 4294967296 - scan_start s)) (scan_start s)
              s.USBRequestBuffer.data).1 },
        pc := Pc.wait m } := by
  unfold worker_iter
  simp only [hnb, Bool.false_eq_true, if_false, hm]

/-! ## The claims -/

/-- C1 (as stated, refuted): the occupancy bound `wptr - rptr <= DAP_PACKET_COUNT`
fails for the response ring.  With four slots, after five request packets have
each been delivered and processed while the host collects no response, the
reachable state has response cursors `wptr = 5`, `rptr = 0`. -/
theorem C1_response_ring_exceeds_capacity :
    ReachableBy demo_cfg demo_trace_responses demo_state_responses ∧
    demo_state_responses.USBResponseBuffer.rptr ≤ demo_state_responses.USBResponseBuffer.wptr ∧
    ¬ (demo_state_responses.USBResponseBuffer.wptr - demo_state_responses.USBResponseBuffer.rptr
        ≤ demo_cfg.DAP_PACKET_COUNT) :=
  ⟨⟨demo_open, demo_opened, rfl⟩, by decide, by decide⟩

/-- C1 (amended): in every state reachable after a successful open by fewer than
`2^32` steps (OUT completions, IN completions, worker passes), the read cursor
has not passed the write cursor, `0 <= wptr - rptr`, for both rings. -/
theorem C1_read_cursor_not_past_write_cursor (cfg : Config) (evs : List Event) (s : State)
    (h : ReachableBy cfg evs s) (hlen : evs.length < 4294967296) :
    s.USBRequestBuffer.rptr ≤ s.USBRequestBuffer.wptr ∧
    s.USBResponseBuffer.rptr ≤ s.USBResponseBuffer.wptr :=
  ⟨(inv_reachable cfg evs s h hlen).req_le, (inv_reachable cfg evs s h hlen).resp_le⟩

/-- C1 (amended), at the run of `demo_trace_responses`. -/
theorem C1_read_cursor_not_past_write_cursor_witness :
    ReachableBy demo_cfg demo_trace_responses demo_state_responses ∧
    demo_trace_responses.length < 4294967296 ∧
    demo_state_responses.USBRequestBuffer.rptr ≤ demo_state_responses.USBRequestBuffer.wptr ∧
    demo_state_responses.USBResponseBuffer.rptr ≤ demo_state_responses.USBResponseBuffer.wptr :=
  ⟨⟨demo_open, demo_opened, rfl⟩, by decide,
    C1_read_cursor_not_past_write_cursor demo_cfg demo_trace_responses demo_state_responses
      ⟨demo_open, demo_opened, rfl⟩ (by decide)⟩

/-- C2 (the code at the failing input): with four slots, once the read cursor
has reached 4 `buffer_full` is never true again.  After four packets have been
delivered and drained, four more are delivered without the worker running: the
ring holds cursors 4..7 in slots 0..3 and the transfer armed for the next
packet points at slot 0, the slot of the undrained cursor 4.  The ninth packet
overwrites it, and the fifth packet handed to the interpreter is the ninth
packet delivered. -/
theorem C2_armed_slot_holds_undrained_packet :
    ReachableBy demo_cfg (demo_trace_overrun.take 12) demo_state_overrun_armed ∧
    demo_state_overrun_armed.USBRequestBuffer.rptr = 4 ∧
    demo_state_overrun_armed.USBRequestBuffer.wptr = 8 ∧
    demo_state_overrun_armed.out_xfers = [⟨4, Ring.request, 0, 64⟩] ∧
    RD_IDX demo_cfg demo_state_overrun_armed.USBRequestBuffer = 0 ∧
    bytes (demo_state_overrun_armed.USBRequestBuffer.data 0) 64 = demo_pkt 5 ∧
    ReachableBy demo_cfg demo_trace_overrun demo_state_overrun ∧
    demo_state_overrun.calls.map Prod.fst =
      [demo_pkt 1, demo_pkt 2, demo_pkt 3, demo_pkt 4, demo_pkt 9] :=
  ⟨⟨demo_open, demo_opened, rfl⟩, by decide, by decide, by decide, by decide, by decide,
    ⟨demo_open, demo_opened, rfl⟩, by decide⟩

/-- C3: FIFO drain of a burst.  In a state where the worker is idle at the top
of its loop, the request ring is empty and the inbound endpoint is armed on the
write slot, let `M <= DAP_PACKET_COUNT - 1` packets (of 1 to `DAP_PACKET_SIZE`
bytes), none of them queue-marked, be delivered by consecutive OUT completions.
Then the deliveries are all enabled, and the worker, run until it blocks (any
bound of at least `M` passes), makes exactly `M` interpreter calls, in delivery
order, each on the slot its packet was received into: `DAP_PACKET_SIZE` bytes
that begin with the packet, and are the packet when it has full size.  The
worker advances `rptr` by `M` to `wptr` and is idle again. -/
theorem C3_burst_drained_in_order (cfg : Config) (s : State) (pkts : List (List Nat))
    (fuel : Nat)
    (hidle : s.pc = Pc.loop)
    (hempty : s.USBRequestBuffer.rptr = s.USBRequestBuffer.wptr)
    (harmed : InboundArmed cfg s)
    (hM : pkts.length + 1 ≤ cfg.DAP_PACKET_COUNT)
    (hsize : ∀ p ∈ pkts, 0 < p.length ∧ p.length ≤ cfg.DAP_PACKET_SIZE)
    (hcmd : ∀ p ∈ pkts, p.getD 0 0 ≠ cfg.ID_DAP_QueueCommands)
    (hw : s.USBRequestBuffer.wptr + pkts.length < 4294967296)
    (hfuel : pkts.length ≤ fuel) :
    ∃ s1, run cfg s (pkts.map Event.out_done) = some s1 ∧
      (worker_run cfg fuel s1).calls.map Prod.fst =
        s.calls.map Prod.fst ++
          received cfg s.USBRequestBuffer.data s.USBRequestBuffer.wptr pkts ∧
      (∀ i, i < pkts.length →
        ((received cfg s.USBRequestBuffer.data s.USBRequestBuffer.wptr pkts).getD i []).length =
          cfg.DAP_PACKET_SIZE ∧
        ((received cfg s.USBRequestBuffer.data s.USBRequestBuffer.wptr pkts).getD i []).take
          (pkts.getD i []).length = pkts.getD i []) ∧
      ((∀ p ∈ pkts, p.length = cfg.DAP_PACKET_SIZE) →
        received cfg s.USBRequestBuffer.data s.USBRequestBuffer.wptr pkts = pkts) ∧
      (worker_run cfg fuel s1).USBRequestBuffer.rptr =
        s.USBRequestBuffer.rptr + pkts.length ∧
      (worker_run cfg fuel s1).USBRequestBuffer.rptr =
        (worker_run cfg fuel s1).USBRequestBuffer.wptr ∧
      (worker_run cfg fuel s1).pc = Pc.loop ∧
      worker_blocked (worker_run cfg fuel s1) = true := by
  obtain ⟨s1, hrun, hD⟩ := delivered_run cfg pkts s harmed
    (fun p hp => (hsize p hp).2) (le_of_eq hempty) (by omega) hw
  refine ⟨s1, hrun, ?_, received_starts_with_packet cfg _ _ pkts (fun p hp => (hsize p hp).2),
    received_full_size cfg _ _ pkts, ?_⟩
  · by_cases hnil : pkts = []
    · have hs1 := hD.same hnil
      subst hs1
      have hb : worker_blocked s1 = true := by
        simp only [worker_blocked, hidle, beq_iff_eq]
        exact hempty
      rw [worker_run_blocked cfg fuel s1 hb]
      subst hnil
      simp [received]
    · have hwp := hD.wptr_eq
      have hrp := hD.rptr_eq
      have hdrain := worker_run_drains cfg pkts.length s1 fuel hfuel (by rw [hD.pc_eq, hidle])
        (hD.not_full hnil) (by rw [hwp, hrp, hempty]) (by rw [hwp]; exact hw)
        (by
          intro i hi
          rw [hrp, hempty, hD.data_new i hi,
            usb_receive_zero _ _ (hsize _ (getD_mem pkts i hi)).1]
          exact hcmd _ (getD_mem pkts i hi))
      rw [hdrain.1, hD.calls_eq]
      congr 1
      unfold received
      apply List.map_congr_left
      intro i hi
      simp only [List.mem_range] at hi
      rw [hrp, hempty, hD.data_new i hi]
  · by_cases hnil : pkts = []
    · have hs1 := hD.same hnil
      subst hs1
      have hb : worker_blocked s1 = true := by
        simp only [worker_blocked, hidle, beq_iff_eq]
        exact hempty
      rw [worker_run_blocked cfg fuel s1 hb]
      subst hnil
      exact ⟨by simp, hempty, hidle, hb⟩
    · have hwp := hD.wptr_eq
      have hrp := hD.rptr_eq
      have hdrain := worker_run_drains cfg pkts.length s1 fuel hfuel (by rw [hD.pc_eq, hidle])
        (hD.not_full hnil) (by rw [hwp, hrp, hempty]) (by rw [hwp]; exact hw)
        (by
          intro i hi
          rw [hrp, hempty, hD.data_new i hi,
            usb_receive_zero _ _ (hsize _ (getD_mem pkts i hi)).1]
          exact hcmd _ (getD_mem pkts i hi))
      obtain ⟨-, r2, r3⟩ := hdrain
      refine ⟨?_, ?_, r3, ?_⟩
      · rw [r2]
        simp only
        rw [hwp, hempty]
      · rw [r2]
      · simp only [worker_blocked, r3, r2, beq_self_eq_true]


/-- C3 at slot size 64, four slots, three packets after open: three interpreter
calls on the three packets in order, request cursors `rptr = wptr = 3`; the
three responses occupy slots 0, 1, 2 and are armed in that order (the first by
the worker, the next two by the IN completions). -/
theorem C3_burst_drained_in_order_witness :
    (demo_open.pc = Pc.loop ∧
      demo_open.USBRequestBuffer.rptr = demo_open.USBRequestBuffer.wptr ∧
      InboundArmed demo_cfg demo_open ∧
      demo_burst.length + 1 ≤ demo_cfg.DAP_PACKET_COUNT) ∧
    (∃ s1, run demo_cfg demo_open (demo_burst.map Event.out_done) = some s1 ∧
      (worker_run demo_cfg 3 s1).calls.map Prod.fst =
        demo_open.calls.map Prod.fst ++
          received demo_cfg demo_open.USBRequestBuffer.data demo_open.USBRequestBuffer.wptr
            demo_burst ∧
      (∀ i, i < demo_burst.length →
        ((received demo_cfg demo_open.USBRequestBuffer.data demo_open.USBRequestBuffer.wptr
            demo_burst).getD i []).length = demo_cfg.DAP_PACKET_SIZE ∧
        ((received demo_cfg demo_open.USBRequestBuffer.data demo_open.USBRequestBuffer.wptr
            demo_burst).getD i []).take (demo_burst.getD i []).length = demo_burst.getD i []) ∧
      ((∀ p ∈ demo_burst, p.length = demo_cfg.DAP_PACKET_SIZE) →
        received demo_cfg demo_open.USBRequestBuffer.data demo_open.USBRequestBuffer.wptr
          demo_burst = demo_burst) ∧
      (worker_run demo_cfg 3 s1).USBRequestBuffer.rptr =
        demo_open.USBRequestBuffer.rptr + demo_burst.length ∧
      (worker_run demo_cfg 3 s1).USBRequestBuffer.rptr =
        (worker_run demo_cfg 3 s1).USBRequestBuffer.wptr ∧
      (worker_run demo_cfg 3 s1).pc = Pc.loop ∧
      worker_blocked (worker_run demo_cfg 3 s1) = true) ∧
    (demo_state_burst.calls.map Prod.fst = demo_burst ∧
      demo_state_burst.USBRequestBuffer.rptr = 3 ∧
      demo_state_burst.USBRequestBuffer.wptr = 3 ∧
      (run demo_cfg demo_state_burst [Event.in_done, Event.in_done]).map
          (fun s => (s.xfer_log.filter (fun x => x.ring = Ring.response)).map Xfer.slot) =
        some [0, 1, 2]) :=
  ⟨⟨rfl, rfl, ⟨4, by decide, by decide⟩, by decide⟩,
    C3_burst_drained_in_order demo_cfg demo_open demo_burst 3 rfl rfl
      ⟨4, by decide, by decide⟩ (by decide) (by decide) (by decide) (by decide) (by decide),
    ⟨by decide, by decide, by decide, by decide⟩⟩

/-- C4: atomic-batch admission, safety half.  After a successful open, as long
as every packet delivered is queue-marked, then for every interleaving of the
deliveries with worker passes (and however many of each) the interpreter has
not been called and the request read cursor has not moved. -/
theorem C4_queued_packets_not_executed (cfg : Config) (evs : List Event) (s0 s : State)
    (hN : 0 < cfg.DAP_PACKET_COUNT) (hN32 : cfg.DAP_PACKET_COUNT ≤ 4294967296)
    (hopen : Opened cfg s0) (hq : ∀ e ∈ evs, QueueEvent cfg e)
    (hrun : run cfg s0 evs = some s) :
    s.calls = [] ∧ s.USBRequestBuffer.rptr = s0.USBRequestBuffer.rptr ∧
      s.USBRequestBuffer.rptr = 0 := by
  have h0 := queue_wait_opened cfg s0 hN hopen
  have h := queue_wait_run cfg hN32 evs s0 s h0 hq hrun
  exact ⟨h.calls_nil, by rw [h.rptr_zero, h0.rptr_zero], h.rptr_zero⟩

/-- C4 at a run in which two queue-marked packets arrive and the worker is
resumed three times. -/
theorem C4_queued_packets_not_executed_witness :
    (Opened demo_cfg demo_open ∧
      run demo_cfg demo_open demo_trace_queueing = some demo_state_queueing) ∧
    (demo_state_queueing.calls = [] ∧
      demo_state_queueing.USBRequestBuffer.rptr = demo_open.USBRequestBuffer.rptr ∧
      demo_state_queueing.USBRequestBuffer.rptr = 0) :=
  ⟨⟨demo_opened, rfl⟩,
    C4_queued_packets_not_executed demo_cfg demo_trace_queueing demo_open demo_state_queueing
      (by decide) (by decide) demo_opened
      (by
        intro e he
        simp only [demo_trace_queueing, List.mem_cons, List.mem_singleton, List.not_mem_nil,
          or_false] at he
        rcases he with rfl | rfl | rfl | rfl | rfl
        · exact ⟨by decide, by decide⟩
        · trivial
        · trivial
        · exact ⟨by decide, by decide⟩
        · trivial)
      rfl⟩

/-- C5: atomic-batch admission, delivery half.  In a state where the worker is
idle at the top of its loop, the request ring is empty and the inbound
endpoint is armed on the write slot, let `k` queue-marked packets and then one
packet that is not queue-marked (each of 1 to `DAP_PACKET_SIZE` bytes) be
delivered by consecutive OUT completions, `k + 1 <= DAP_PACKET_COUNT - 1`.
Then the worker, run until it blocks (any bound of at least `k + 1` passes),
makes exactly `k + 1` interpreter calls in delivery order; what it hands over
is what the slots would hold had the first `k` packets arrived with byte 0
equal to `ID_DAP_ExecuteCommands` and all other bytes as sent, and the last
packet as sent (for full-size packets: exactly these packets).  It ends idle
with `rptr = wptr`, advanced by `k + 1`. -/
theorem C5_queued_batch_delivered (cfg : Config) (s : State) (qs : List (List Nat))
    (t : List Nat) (fuel : Nat)
    (hidle : s.pc = Pc.loop)
    (hempty : s.USBRequestBuffer.rptr = s.USBRequestBuffer.wptr)
    (harmed : InboundArmed cfg s)
    (hk : qs.length + 2 ≤ cfg.DAP_PACKET_COUNT)
    (hQE : cfg.ID_DAP_QueueCommands ≠ cfg.ID_DAP_ExecuteCommands)
    (hqsize : ∀ q ∈ qs, 0 < q.length ∧ q.length ≤ cfg.DAP_PACKET_SIZE)
    (hqcmd : ∀ q ∈ qs, q.getD 0 0 = cfg.ID_DAP_QueueCommands)
    (htsize : 0 < t.length ∧ t.length ≤ cfg.DAP_PACKET_SIZE)
    (htcmd : t.getD 0 0 ≠ cfg.ID_DAP_QueueCommands)
    (hw : s.USBRequestBuffer.wptr + (qs.length + 1) < 4294967296)
    (hfuel : qs.length + 1 ≤ fuel) :
    ∃ s1, run cfg s ((qs ++ [t]).map Event.out_done) = some s1 ∧
      (worker_run cfg fuel s1).calls.map Prod.fst =
        s.calls.map Prod.fst ++
          received cfg s.USBRequestBuffer.data s.USBRequestBuffer.wptr
            (qs.map (fun q => q.set 0 cfg.ID_DAP_ExecuteCommands) ++ [t]) ∧
      ((∀ q ∈ qs, q.length = cfg.DAP_PACKET_SIZE) → t.length = cfg.DAP_PACKET_SIZE →
        received cfg s.USBRequestBuffer.data s.USBRequestBuffer.wptr
            (qs.map (fun q => q.set 0 cfg.ID_DAP_ExecuteCommands) ++ [t]) =
          qs.map (fun q => q.set 0 cfg.ID_DAP_ExecuteCommands) ++ [t]) ∧
      (worker_run cfg fuel s1).USBRequestBuffer.rptr =
        s.USBRequestBuffer.rptr + (qs.length + 1) ∧
      (worker_run cfg fuel s1).USBRequestBuffer.rptr =
        (worker_run cfg fuel s1).USBRequestBuffer.wptr ∧
      (worker_run cfg fuel s1).pc = Pc.loop ∧
      worker_blocked (worker_run cfg fuel s1) = true := by
  have hlen : (qs ++ [t]).length = qs.length + 1 := by simp
  obtain ⟨s1, hrun, hD⟩ := delivered_run cfg (qs ++ [t]) s harmed
    (fun p hp => by
      rcases List.mem_append.1 hp with h | h
      · exact (hqsize p h).2
      · simp only [List.mem_singleton] at h
        rw [h]; exact htsize.2)
    (le_of_eq hempty) (by rw [hlen]; omega) (by rw [hlen]; exact hw)
  refine ⟨s1, hrun, ?_⟩
  have hwp := hD.wptr_eq
  have hrp := hD.rptr_eq
  rw [hlen] at hwp
  have hnf := hD.not_full (by simp)
  have hpc : s1.pc = Pc.loop := by rw [hD.pc_eq, hidle]
  -- contents of the delivered slots
  have hslot_q : ∀ i, i < qs.length →
      s1.USBRequestBuffer.data ((s1.USBRequestBuffer.rptr + i) % cfg.DAP_PACKET_COUNT) =
        usb_receive (s.USBRequestBuffer.data
          ((s.USBRequestBuffer.wptr + i) % cfg.DAP_PACKET_COUNT)) (qs.getD i []) := by
    intro i hi
    rw [hrp, hempty, hD.data_new i (by rw [hlen]; omega)]
    simp [List.getD_eq_getElem?_getD, List.getElem?_append_left hi]
  have hslot_t :
      s1.USBRequestBuffer.data
          ((s1.USBRequestBuffer.rptr + qs.length) % cfg.DAP_PACKET_COUNT) =
        usb_receive (s.USBRequestBuffer.data
          ((s.USBRequestBuffer.wptr + qs.length) % cfg.DAP_PACKET_COUNT)) t := by
    rw [hrp, hempty, hD.data_new qs.length (by rw [hlen]; omega)]
    simp [List.getD_eq_getElem?_getD]
  -- the first pass: the scan rewrites the queue markers, then one packet is drained
  have hscan := admission_scan_passes cfg s1.USBRequestBuffer.wptr (by rw [hwp]; exact hw)
    qs.length s1.USBRequestBuffer.rptr (qs.length + 1) s1.USBRequestBuffer.data
    (by rw [hwp, hrp, hempty]; omega) (le_refl _) (by omega)
    (fun i hi => by
      rw [hslot_q i hi, usb_receive_zero _ _ (hqsize _ (getD_mem qs i hi)).1]
      exact hqcmd _ (getD_mem qs i hi))
    (by rw [hslot_t, usb_receive_zero _ _ htsize.1]; exact htcmd)
  have hnb : ¬ worker_blocked s1 = true := by
    simp only [worker_blocked, hpc, beq_iff_eq]
    omega
  have hscanfuel : u32 (s1.USBRequestBuffer.wptr + 4294967296 - s1.USBRequestBuffer.rptr) =
      qs.length + 1 := by
    simp only [u32]
    omega
  have hiter : worker_iter cfg s1 = drain_packet cfg
      { s1 with
        USBRequestBuffer :=
          { s1.USBRequestBuffer with
            data := mark_queued cfg qs.length s1.USBRequestBuffer.rptr
              s1.USBRequestBuffer.data },
        pc := Pc.loop } := by
    unfold worker_iter
    simp only [hnb, if_false, scan_start, hpc, hscanfuel, hscan, Bool.false_eq_true]
  obtain ⟨d1, d2, d3⟩ := drain_packet_not_full cfg
      { s1 with
        USBRequestBuffer :=
          { s1.USBRequestBuffer with
            data := mark_queued cfg qs.length s1.USBRequestBuffer.rptr
              s1.USBRequestBuffer.data },
        pc := Pc.loop } hnf
  rw [← hiter] at d1 d2 d3
  simp only [RD_IDX] at d1 d2 d3
  obtain ⟨f, rfl⟩ : ∃ f, fuel = f + 1 := ⟨fuel - 1, by omega⟩
  have hrun2 : worker_run cfg (f + 1) s1 = worker_run cfg f (worker_iter cfg s1) := by
    simp [worker_run, hnb]
  have hu : u32 (s1.USBRequestBuffer.rptr + 1) = s1.USBRequestBuffer.rptr + 1 := by
    simp only [u32]; omega
  rw [hu] at d1
  have hdrain := worker_run_drains cfg qs.length (worker_iter cfg s1) f (by omega) d3
    (by rw [d1]; exact hnf) (by rw [d1]; simp only; omega) (by rw [d1]; simp only; omega)
    (by
      intro i hi
      rw [d1]
      simp only
      rw [show s1.USBRequestBuffer.rptr + 1 + i = s1.USBRequestBuffer.rptr + (i + 1) by omega]
      by_cases hlast : i + 1 = qs.length
      · rw [hlast, mark_queued_other cfg _ _ _ _ (fun j hj =>
          mod_add_ne_add _ _ j qs.length hj (by omega))]
        rw [hslot_t, usb_receive_zero _ _ htsize.1]; exact htcmd
      · rw [mark_queued_marked cfg _ _ _ (i + 1) (by omega) (by omega)]
        simp only [Function.update_same]
        exact fun h => hQE h.symm)
  obtain ⟨r1, r2, r3⟩ := hdrain
  rw [hrun2]
  refine ⟨?_, ?_, ?_, ?_, r3, ?_⟩
  · rw [r1, d2, d1]
    simp only [List.append_assoc, List.singleton_append]
    congr 1
    · rw [hD.calls_eq]
    · have hshift := range_succ_map_shift qs.length (fun i =>
        bytes (mark_queued cfg qs.length s1.USBRequestBuffer.rptr s1.USBRequestBuffer.data
          ((s1.USBRequestBuffer.rptr + i) % cfg.DAP_PACKET_COUNT)) cfg.DAP_PACKET_SIZE)
      simp only [Nat.add_zero] at hshift
      have e : ∀ i, s1.USBRequestBuffer.rptr + 1 + i = s1.USBRequestBuffer.rptr + (i + 1) := by
        intro i; omega
      simp only [e]
      rw [← hshift]
      unfold received
      have hl : (qs.map (fun q => q.set 0 cfg.ID_DAP_ExecuteCommands) ++ [t]).length =
          qs.length + 1 := by simp
      rw [hl]
      apply List.map_congr_left
      intro i hi
      simp only [List.mem_range] at hi
      by_cases hik : i < qs.length
      · rw [mark_queued_marked cfg _ _ _ i hik (by omega), hslot_q i hik,
          ← usb_receive_set_zero _ _ _ (hqsize _ (getD_mem qs i hik)).1]
        congr 2
        simp [List.getD_eq_getElem?_getD, List.getElem?_append_left, hik]
      · have hik2 : i = qs.length := by omega
        subst hik2
        rw [mark_queued_other cfg _ _ _ _ (fun j hj =>
          mod_add_ne_add _ _ j qs.length hj (by omega)), hslot_t]
        congr 2
        simp [List.getD_eq_getElem?_getD]
  · intro hq ht
    apply received_full_size
    intro p hp
    rcases List.mem_append.1 hp with h | h
    · obtain ⟨q, hq1, rfl⟩ := List.mem_map.1 h
      simp [hq q hq1]
    · simp only [List.mem_singleton] at h
      rw [h]; exact ht
  · rw [r2, d1]
    simp only
    rw [hwp, hempty]
  · rw [r2]
  · simp only [worker_blocked, r3, r2, beq_self_eq_true]

/-- C5 at two queue-marked packets and one terminating packet after open:
exactly three interpreter calls, the first two with command byte 0x7F. -/
theorem C5_queued_batch_delivered_witness :
    (demo_open.pc = Pc.loop ∧
      demo_open.USBRequestBuffer.rptr = demo_open.USBRequestBuffer.wptr ∧
      InboundArmed demo_cfg demo_open ∧
      demo_queued.length + 2 ≤ demo_cfg.DAP_PACKET_COUNT ∧
      demo_cfg.ID_DAP_QueueCommands ≠ demo_cfg.ID_DAP_ExecuteCommands) ∧
    (∃ s1, run demo_cfg demo_open ((demo_queued ++ [demo_last]).map Event.out_done) = some s1 ∧
      (worker_run demo_cfg 3 s1).calls.map Prod.fst =
        demo_open.calls.map Prod.fst ++
          received demo_cfg demo_open.USBRequestBuffer.data demo_open.USBRequestBuffer.wptr
            (demo_queued.map (fun q => q.set 0 demo_cfg.ID_DAP_ExecuteCommands) ++
              [demo_last]) ∧
      ((∀ q ∈ demo_queued, q.length = demo_cfg.DAP_PACKET_SIZE) →
        demo_last.length = demo_cfg.DAP_PACKET_SIZE →
        received demo_cfg demo_open.USBRequestBuffer.data demo_open.USBRequestBuffer.wptr
            (demo_queued.map (fun q => q.set 0 demo_cfg.ID_DAP_ExecuteCommands) ++
              [demo_last]) =
          demo_queued.map (fun q => q.set 0 demo_cfg.ID_DAP_ExecuteCommands) ++ [demo_last]) ∧
      (worker_run demo_cfg 3 s1).USBRequestBuffer.rptr =
        demo_open.USBRequestBuffer.rptr + (demo_queued.length + 1) ∧
      (worker_run demo_cfg 3 s1).USBRequestBuffer.rptr =
        (worker_run demo_cfg 3 s1).USBRequestBuffer.wptr ∧
      (worker_run demo_cfg 3 s1).pc = Pc.loop ∧
      worker_blocked (worker_run demo_cfg 3 s1) = true) ∧
    (demo_queued.map (fun q => q.set 0 demo_cfg.ID_DAP_ExecuteCommands) ++ [demo_last] =
        [demo_pkt2 127 10, demo_pkt2 127 11, demo_pkt2 5 12] ∧
      (worker_run demo_cfg 3
          ((run demo_cfg demo_open
            ((demo_queued ++ [demo_last]).map Event.out_done)).getD boot)).calls.map Prod.fst =
        [demo_pkt2 127 10, demo_pkt2 127 11, demo_pkt2 5 12]) :=
  ⟨⟨rfl, rfl, ⟨4, by decide, by decide⟩, by decide, by decide⟩,
    C5_queued_batch_delivered demo_cfg demo_open demo_queued demo_last 3 rfl rfl
      ⟨4, by decide, by decide⟩ (by decide) (by decide) (by decide) (by decide) (by decide)
      (by decide) (by decide) (by decide),
    ⟨by decide, by decide⟩⟩

/-- C6: oversize transfer rejection.  For every state, endpoint address and
byte count, `dap_edpt_xfer_cb` returns false exactly when
`xferred_bytes > DAP_PACKET_SIZE`, and whenever it returns false the state is
unchanged: both rings, the armed transfers, the transfer log and the number of
worker resumes. -/
theorem C6_oversize_transfer_rejected (cfg : Config) (s : State) (ep_addr xferred_bytes : Nat) :
    ((dap_edpt_xfer_cb cfg s ep_addr xferred_bytes).1 = false ↔
        xferred_bytes > cfg.DAP_PACKET_SIZE) ∧
    ((dap_edpt_xfer_cb cfg s ep_addr xferred_bytes).1 = false →
        (dap_edpt_xfer_cb cfg s ep_addr xferred_bytes).2 = s) := by
  have hne : ¬ TUSB_DIR_OUT = TUSB_DIR_IN := by decide
  rcases tu_edpt_dir_cases ep_addr with hd | hd
  · by_cases hx : xferred_bytes > cfg.DAP_PACKET_SIZE
    · simp [dap_edpt_xfer_cb, hd, hx]
    · simp [dap_edpt_xfer_cb, hd, hx]
  · by_cases hx : xferred_bytes > cfg.DAP_PACKET_SIZE
    · simp [dap_edpt_xfer_cb, hd, hx, hne]
    · simp [dap_edpt_xfer_cb, hd, hx, hne]


/-- C7 (the code at the failing input): with four slots, a complete batch of
three queue-marked packets and its terminating packet arrives before the worker
runs.  The fourth completion finds the ring full: the terminating packet lies
in slot 3, `wptr` stays 3 and `wasFull` is set.  The worker pass then rewrites
the three queue markers and suspends at the write cursor: no interpreter call
is made, no slot is freed, no transfer is armed, `wasFull` stays true, and no
step but a worker pass that changes nothing is enabled any more. -/
theorem C7_full_ring_of_queued_packets_stalls :
    ReachableBy demo_cfg demo_trace_full demo_state_full ∧
    demo_state_full.USBRequestBuffer.wasFull = true ∧
    buffer_full demo_cfg demo_state_full.USBRequestBuffer = true ∧
    demo_state_full.USBRequestBuffer.wptr = 3 ∧
    bytes (demo_state_full.USBRequestBuffer.data 3) 64 = demo_pkt2 5 13 ∧
    (worker_iter demo_cfg demo_state_full).USBRequestBuffer.rptr =
      demo_state_full.USBRequestBuffer.rptr ∧
    (worker_iter demo_cfg demo_state_full).USBRequestBuffer.wptr =
      demo_state_full.USBRequestBuffer.wptr ∧
    (worker_iter demo_cfg demo_state_full).xfer_log = demo_state_full.xfer_log ∧
    (worker_iter demo_cfg demo_state_full).USBRequestBuffer.wasFull = true ∧
    (worker_iter demo_cfg demo_state_full).calls = [] ∧
    (worker_iter demo_cfg demo_state_full).pc = Pc.wait 3 ∧
    (worker_iter demo_cfg demo_state_full).out_xfers = [] ∧
    (worker_iter demo_cfg demo_state_full).in_xfers = [] ∧
    worker_blocked (worker_iter demo_cfg demo_state_full) = true :=
  ⟨⟨demo_open, demo_opened, rfl⟩, by decide, by decide, by decide, by decide, by decide,
    by decide, by decide, by decide, by decide, by decide, by decide, by decide, by decide⟩

/-- Re-admission after back-pressure when the admission scan is passed.  In
every state with `wasFull` set in which, from the scan position of the worker,
`k` queue-marked packets are followed, before the write cursor, by a packet
that is not queue-marked (`k = 0` when the packet at the scan position is not
queue-marked), one worker pass frees one slot (`rptr` advances by one),
advances `wptr` by one, arms exactly one inbound transfer, of length
`DAP_PACKET_SIZE` on the new write slot, and leaves `wasFull` false; the only
other transfer it may arm is the outbound one of the publication step. -/
theorem worker_iter_rearms_after_back_pressure (cfg : Config) (s : State) (k : Nat)
    (hfull : s.USBRequestBuffer.wasFull = true)
    (hk : scan_start s + k < s.USBRequestBuffer.wptr)
    (hkN : k + 1 ≤ cfg.DAP_PACKET_COUNT)
    (hw : s.USBRequestBuffer.wptr < 4294967296)
    (hq : ∀ i, i < k →
      s.USBRequestBuffer.data ((scan_start s + i) % cfg.DAP_PACKET_COUNT) 0 =
        cfg.ID_DAP_QueueCommands)
    (ht : s.USBRequestBuffer.data ((scan_start s + k) % cfg.DAP_PACKET_COUNT) 0 ≠
      cfg.ID_DAP_QueueCommands) :
    (worker_iter cfg s).USBRequestBuffer.rptr = u32 (s.USBRequestBuffer.rptr + 1) ∧
    (worker_iter cfg s).USBRequestBuffer.wptr = u32 (s.USBRequestBuffer.wptr + 1) ∧
    (worker_iter cfg s).USBRequestBuffer.wasFull = false ∧
    ∃ tail, (worker_iter cfg s).xfer_log =
        s.xfer_log ++
          ⟨s._out_ep_addr, Ring.request,
            u32 (s.USBRequestBuffer.wptr + 1) % cfg.DAP_PACKET_COUNT, cfg.DAP_PACKET_SIZE⟩ ::
            tail ∧
      ∀ y ∈ tail, y.ring = Ring.response := by
  have hnb : ¬ worker_blocked s = true := by
    unfold worker_blocked
    unfold scan_start at hk
    cases hpc : s.pc with
    | loop => rw [hpc] at hk; simp only [beq_iff_eq]; have : s.USBRequestBuffer.rptr + k < _ := hk; omega
    | wait n => rw [hpc] at hk; simp only [beq_iff_eq]; have : n + k < _ := hk; omega
  have hscan := admission_scan_passes cfg s.USBRequestBuffer.wptr hw k (scan_start s)
    (u32 (s.USBRequestBuffer.wptr + 4294967296 - scan_start s)) s.USBRequestBuffer.data hk
    (by simp only [u32]; omega) hkN hq ht
  have hiter : worker_iter cfg s = drain_packet cfg
      { s with
        USBRequestBuffer :=
          { s.USBRequestBuffer with
            data := mark_queued cfg k (scan_start s) s.USBRequestBuffer.data },
        pc := Pc.loop } := by
    unfold worker_iter
    simp only [hnb, if_false, hscan, Bool.false_eq_true]
  obtain ⟨d1, tail, d2, d3⟩ := drain_packet_was_full cfg
      { s with
        USBRequestBuffer :=
          { s.USBRequestBuffer with
            data := mark_queued cfg k (scan_start s) s.USBRequestBuffer.data },
        pc := Pc.loop } hfull
  rw [← hiter] at d1 d2
  rw [d1]
  exact ⟨rfl, rfl, rfl, tail, d2, d3⟩

/-- C8: response publication.  The publication step of a worker pass copies the
first `(uint16_t)_resp_len` bytes of `DAPResponseBuffer` into the write slot of
the response ring (touching no other byte of the ring) and advances `wptr` by
one, leaving `rptr`.  If the ring was empty before (`wptr == rptr`), it arms
exactly one transfer: on the IN endpoint, from the slot just written, with
length `(uint16_t)_resp_len`, and leaves `wasEmpty` as it was.  If the ring was
not empty it arms nothing and sets `wasEmpty` to false. -/
theorem C8_response_publication (cfg : Config) (s : State) :
    (publish_response cfg s).USBResponseBuffer.wptr = u32 (s.USBResponseBuffer.wptr + 1) ∧
    (publish_response cfg s).USBResponseBuffer.rptr = s.USBResponseBuffer.rptr ∧
    (∀ j, j < u16 s._resp_len →
      (publish_response cfg s).USBResponseBuffer.data (WR_IDX cfg s.USBResponseBuffer) j =
        s.DAPResponseBuffer j) ∧
    (∀ j, ¬ j < u16 s._resp_len →
      (publish_response cfg s).USBResponseBuffer.data (WR_IDX cfg s.USBResponseBuffer) j =
        s.USBResponseBuffer.data (WR_IDX cfg s.USBResponseBuffer) j) ∧
    (∀ i, i ≠ WR_IDX cfg s.USBResponseBuffer →
      (publish_response cfg s).USBResponseBuffer.data i = s.USBResponseBuffer.data i) ∧
    (s.USBResponseBuffer.wptr = s.USBResponseBuffer.rptr →
      (publish_response cfg s).xfer_log =
        s.xfer_log ++
          [⟨s._in_ep_addr, Ring.response, WR_IDX cfg s.USBResponseBuffer, u16 s._resp_len⟩] ∧
      (publish_response cfg s).USBResponseBuffer.wasEmpty = s.USBResponseBuffer.wasEmpty) ∧
    (s.USBResponseBuffer.wptr ≠ s.USBResponseBuffer.rptr →
      (publish_response cfg s).xfer_log = s.xfer_log ∧
      (publish_response cfg s).in_xfers = s.in_xfers ∧
      (publish_response cfg s).out_xfers = s.out_xfers ∧
      (publish_response cfg s).USBResponseBuffer.wasEmpty = false) := by
  unfold publish_response buffer_empty
  by_cases hE : s.USBResponseBuffer.wptr = s.USBResponseBuffer.rptr
  · simp only [hE, beq_self_eq_true, if_true]
    obtain ⟨-, f2, f3, -⟩ := usbd_edpt_xfer_frame
      { s with USBResponseBuffer :=
          { s.USBResponseBuffer with
            data := Function.update s.USBResponseBuffer.data (WR_IDX cfg s.USBResponseBuffer)
              (memcpy (s.USBResponseBuffer.data (WR_IDX cfg s.USBResponseBuffer))
                s.DAPResponseBuffer (u16 s._resp_len)),
            wptr := u32 (s.USBResponseBuffer.wptr + 1) } }
      s._in_ep_addr Ring.response (s.USBResponseBuffer.rptr % cfg.DAP_PACKET_COUNT)
      (u16 s._resp_len)
    simp only [WR_IDX, RD_IDX, hE] at f2 f3 ⊢
    rw [f2, f3]
    simp [memcpy]
    refine ⟨?_, ?_, ?_⟩
    · intro j h1 h2; omega
    · intro j h1 h2; omega
    · intro i hi
      exact Function.update_noteq hi _ _
  · simp only [hE, beq_iff_eq, if_false]
    simp [memcpy, WR_IDX]
    refine ⟨?_, ?_, ?_⟩
    · intro j h1 h2; omega
    · intro j h1 h2; omega
    · intro i hi
      exact Function.update_noteq hi _ _

/-- C9: at most one outstanding transfer per direction.  In every state
reachable after a successful open by fewer than `2^32` steps (OUT completions,
IN completions, worker passes), at most one inbound and at most one outbound
transfer is armed and not yet completed. -/
theorem C9_one_outstanding_transfer_per_direction (cfg : Config) (evs : List Event)
    (s : State) (h : ReachableBy cfg evs s) (hlen : evs.length < 4294967296) :
    s.out_xfers.length ≤ 1 ∧ s.in_xfers.length ≤ 1 :=
  ⟨(inv_reachable cfg evs s h hlen).outq_len, (inv_reachable cfg evs s h hlen).inq_len⟩

/-- C9 at the run of `demo_trace_lagging`, where three responses are queued. -/
theorem C9_one_outstanding_transfer_per_direction_witness :
    (ReachableBy demo_cfg demo_trace_lagging demo_state_lagging ∧
      demo_trace_lagging.length < 4294967296) ∧
    (demo_state_lagging.out_xfers.length ≤ 1 ∧ demo_state_lagging.in_xfers.length ≤ 1) :=
  ⟨⟨⟨demo_open, demo_opened, rfl⟩, by decide⟩,
    C9_one_outstanding_transfer_per_direction demo_cfg demo_trace_lagging demo_state_lagging
      ⟨demo_open, demo_opened, rfl⟩ (by decide)⟩

/-- C10 (the code at the failing input): three requests whose responses have the
lengths 1, 2 and 3 are processed before the host collects the first response.
The IN completion then arms the new read slot, slot 1, which holds the second
response (two bytes, `[2, 0]`), with length 3, the length of the third
response; the interpreter had returned 2 for it. -/
theorem C10_in_callback_arms_with_latest_length :
    ReachableBy demo_cfg (demo_trace_lagging ++ [Event.in_done]) demo_state_lagging_in ∧
    demo_state_lagging.USBResponseBuffer.wasEmpty = false ∧
    demo_state_lagging._resp_len = 3 ∧
    demo_state_lagging_in.USBResponseBuffer.rptr = 1 ∧
    demo_state_lagging_in.USBResponseBuffer.wptr = 3 ∧
    demo_state_lagging_in.xfer_log.getLast? = some ⟨133, Ring.response, 1, 3⟩ ∧
    demo_state_lagging_in.in_xfers = [⟨133, Ring.response, 1, 3⟩] ∧
    demo_state_lagging_in.calls.map Prod.snd = [1, 2, 3] ∧
    (demo_state_lagging_in.calls.map Prod.snd)[1]? = some 2 ∧
    bytes (demo_state_lagging_in.USBResponseBuffer.data 1) 2 = [2, 0] :=
  ⟨⟨demo_open, demo_opened, rfl⟩, by decide, by decide, by decide, by decide, by decide,
    by decide, by decide, by decide, by decide⟩

/-- C11: one interpreter call per admitted packet.  In every state reachable after
a successful open the response write cursor equals the request read cursor, and
it still does after one more worker pass.  A worker pass that is blocked or
suspends inside the admission scan leaves the request read cursor, the
interpreter log and the response write cursor unchanged.  A pass that completes
the loop body advances the request read cursor by one, makes exactly one
interpreter call, on the `DAP_PACKET_SIZE` bytes of the slot at the old read
index, and advances the response write cursor by one (cursors modulo `2^32`). -/
theorem C11_one_call_per_admitted_packet (cfg : Config) (evs : List Event) (s : State)
    (h : ReachableBy cfg evs s) :
    s.USBResponseBuffer.wptr = s.USBRequestBuffer.rptr ∧
    (worker_iter cfg s).USBResponseBuffer.wptr = (worker_iter cfg s).USBRequestBuffer.rptr ∧
    ((worker_blocked s = true ∨
        (admission_scan cfg s.USBRequestBuffer.wptr
          (u32 (s.USBRequestBuffer.wptr + 4294967296 - scan_start s)) (scan_start s)
          s.USBRequestBuffer.data).2 ≠ none) →
      (worker_iter cfg s).USBRequestBuffer.rptr = s.USBRequestBuffer.rptr ∧
      (worker_iter cfg s).calls = s.calls ∧
      (worker_iter cfg s).USBResponseBuffer.wptr = s.USBResponseBuffer.wptr) ∧
    (worker_blocked s = false →
      (admission_scan cfg s.USBRequestBuffer.wptr
          (u32 (s.USBRequestBuffer.wptr + 4294967296 - scan_start s)) (scan_start s)
          s.USBRequestBuffer.data).2 = none →
      (worker_iter cfg s).USBRequestBuffer.rptr = u32 (s.USBRequestBuffer.rptr + 1) ∧
      (worker_iter cfg s).calls =
        s.calls ++
          [(bytes ((worker_iter cfg s).USBRequestBuffer.data (RD_IDX cfg s.USBRequestBuffer))
              cfg.DAP_PACKET_SIZE,
            (worker_iter cfg s)._resp_len)] ∧
      (worker_iter cfg s).USBResponseBuffer.wptr = u32 (s.USBResponseBuffer.wptr + 1)) := by
  obtain ⟨s0, ho, hr⟩ := h
  have h0 : s0.USBResponseBuffer.wptr = s0.USBRequestBuffer.rptr := (inv_opened cfg s0 ho).resp_eq
  have hs := cursor_link_run cfg evs s0 s h0 hr
  exact ⟨hs, cursor_link_step cfg s _ Event.worker hs rfl, (worker_iter_drain cfg s).1,
    (worker_iter_drain cfg s).2⟩


/-- C11 at the state where four packets have been delivered and none drained:
the first worker pass makes the first interpreter call, on the first packet. -/
theorem C11_one_call_per_admitted_packet_witness :
    ReachableBy demo_cfg demo_trace_full_plain demo_state_full_plain ∧
    demo_state_full_plain.USBResponseBuffer.wptr = demo_state_full_plain.USBRequestBuffer.rptr ∧
    (worker_iter demo_cfg demo_state_full_plain).USBRequestBuffer.rptr = 1 ∧
    (worker_iter demo_cfg demo_state_full_plain).calls = [(demo_pkt 1, 1)] ∧
    (worker_iter demo_cfg demo_state_full_plain).USBResponseBuffer.wptr = 1 :=
  ⟨⟨demo_open, demo_opened, rfl⟩,
    (C11_one_call_per_admitted_packet demo_cfg demo_trace_full_plain demo_state_full_plain
      ⟨demo_open, demo_opened, rfl⟩).1,
    ((C11_one_call_per_admitted_packet demo_cfg demo_trace_full_plain demo_state_full_plain
      ⟨demo_open, demo_opened, rfl⟩).2.2.2 (by decide) (by decide)).1,
    ((C11_one_call_per_admitted_packet demo_cfg demo_trace_full_plain demo_state_full_plain
      ⟨demo_open, demo_opened, rfl⟩).2.2.2 (by decide) (by decide)).2.1,
    ((C11_one_call_per_admitted_packet demo_cfg demo_trace_full_plain demo_state_full_plain
      ⟨demo_open, demo_opened, rfl⟩).2.2.2 (by decide) (by decide)).2.2⟩


/-- C12: open success postcondition.  For an interface descriptor with the
vendor-specific DAP signature and a `uint16_t` `max_len` of at least
`sizeof(tusb_desc_interface_t) + bNumEndpoints * sizeof(tusb_desc_endpoint_t)`,
`dap_edpt_open` returns exactly that length, leaves both rings with
`wptr = rptr = 0`, `wasEmpty = true` and `wasFull = false`, records the first
endpoint address in `_out_ep_addr` and the second in `_in_ep_addr`, opens both
endpoints, and makes exactly one `usbd_edpt_xfer` call: on the first endpoint,
into slot 0 of the request ring, with length `DAP_PACKET_SIZE`.  When that
address is an OUT address the transfer is queued inbound and no outbound
transfer is added. -/
theorem C12_open_success_postcondition (cfg : Config) (s : State)
    (itf_desc : tusb_desc_interface_t) (edpt : Nat → Nat) (max_len : Nat)
    (hclass : cfg.TUSB_CLASS_VENDOR_SPECIFIC = itf_desc.bInterfaceClass)
    (hsub : cfg.DAP_INTERFACE_SUBCLASS = itf_desc.bInterfaceSubClass)
    (hproto : cfg.DAP_INTERFACE_PROTOCOL = itf_desc.bInterfaceProtocol)
    (hmax : max_len < 65536)
    (hlen : max_len ≥ cfg.sizeof_tusb_desc_interface_t +
      itf_desc.bNumEndpoints * cfg.sizeof_tusb_desc_endpoint_t) :
    (dap_edpt_open cfg s itf_desc edpt max_len).1 =
      cfg.sizeof_tusb_desc_interface_t +
        itf_desc.bNumEndpoints * cfg.sizeof_tusb_desc_endpoint_t ∧
    ((dap_edpt_open cfg s itf_desc edpt max_len).2.USBRequestBuffer.wptr = 0 ∧
      (dap_edpt_open cfg s itf_desc edpt max_len).2.USBRequestBuffer.rptr = 0 ∧
      (dap_edpt_open cfg s itf_desc edpt max_len).2.USBRequestBuffer.wasEmpty = true ∧
      (dap_edpt_open cfg s itf_desc edpt max_len).2.USBRequestBuffer.wasFull = false) ∧
    ((dap_edpt_open cfg s itf_desc edpt max_len).2.USBResponseBuffer.wptr = 0 ∧
      (dap_edpt_open cfg s itf_desc edpt max_len).2.USBResponseBuffer.rptr = 0 ∧
      (dap_edpt_open cfg s itf_desc edpt max_len).2.USBResponseBuffer.wasEmpty = true ∧
      (dap_edpt_open cfg s itf_desc edpt max_len).2.USBResponseBuffer.wasFull = false) ∧
    (dap_edpt_open cfg s itf_desc edpt max_len).2._out_ep_addr = edpt 0 ∧
    (dap_edpt_open cfg s itf_desc edpt max_len).2._in_ep_addr = edpt 1 ∧
    (dap_edpt_open cfg s itf_desc edpt max_len).2.itf_num = itf_desc.bInterfaceNumber ∧
    (dap_edpt_open cfg s itf_desc edpt max_len).2.opened = s.opened ++ [edpt 0, edpt 1] ∧
    (dap_edpt_open cfg s itf_desc edpt max_len).2.xfer_log =
      s.xfer_log ++ [⟨edpt 0, Ring.request, 0, cfg.DAP_PACKET_SIZE⟩] ∧
    (tu_edpt_dir (edpt 0) = TUSB_DIR_OUT →
      (dap_edpt_open cfg s itf_desc edpt max_len).2.out_xfers =
        s.out_xfers ++ [⟨edpt 0, Ring.request, 0, cfg.DAP_PACKET_SIZE⟩] ∧
      (dap_edpt_open cfg s itf_desc edpt max_len).2.in_xfers = s.in_xfers) := by
  have hu : u16 (cfg.sizeof_tusb_desc_interface_t +
      itf_desc.bNumEndpoints * cfg.sizeof_tusb_desc_endpoint_t) =
      cfg.sizeof_tusb_desc_interface_t +
        itf_desc.bNumEndpoints * cfg.sizeof_tusb_desc_endpoint_t := by
    unfold u16
    exact Nat.mod_eq_of_lt (by omega)
  have hok : open_ok cfg itf_desc max_len := ⟨hclass, hsub, hproto, by rw [hu]; exact hlen⟩
  rw [dap_edpt_open_ok cfg s itf_desc edpt max_len hok, hu]
  refine ⟨rfl, ?_, ?_, ?_, ?_, ?_, ?_, ?_, ?_⟩
  · simp [usbd_edpt_open, usbd_edpt_xfer_request]
  · simp [usbd_edpt_open, usbd_edpt_xfer_response]
  · simp [usbd_edpt_open, (usbd_edpt_xfer_frame _ _ _ _ _).2.2.2.2.2.2.2.1]
  · simp [usbd_edpt_open]
  · simp only [usbd_edpt_open, usbd_edpt_xfer]
    split <;> rfl
  · simp only [usbd_edpt_open, usbd_edpt_xfer]
    split <;> simp
  · simp [usbd_edpt_open, usbd_edpt_xfer_log]
  · intro hd
    rw [usbd_edpt_xfer_out _ _ _ _ _ hd]
    simp [usbd_edpt_open]


/-- C12 at a re-open of the interface in the state `demo_state_lagging`, with
`max_len = 23 = 9 + 2 * 7`. -/
theorem C12_open_success_postcondition_witness :
    (demo_cfg.TUSB_CLASS_VENDOR_SPECIFIC = demo_itf.bInterfaceClass ∧
      demo_cfg.DAP_INTERFACE_SUBCLASS = demo_itf.bInterfaceSubClass ∧
      demo_cfg.DAP_INTERFACE_PROTOCOL = demo_itf.bInterfaceProtocol ∧
      (23 : Nat) < 65536 ∧
      23 ≥ demo_cfg.sizeof_tusb_desc_interface_t +
        demo_itf.bNumEndpoints * demo_cfg.sizeof_tusb_desc_endpoint_t) ∧
    (dap_edpt_open demo_cfg demo_state_lagging demo_itf demo_edpt 23).1 = 23 ∧
    (dap_edpt_open demo_cfg demo_state_lagging demo_itf demo_edpt 23).2.USBResponseBuffer.wptr
      = 0 ∧
    (dap_edpt_open demo_cfg demo_state_lagging demo_itf demo_edpt 23).2.xfer_log =
      demo_state_lagging.xfer_log ++ [⟨4, Ring.request, 0, 64⟩] :=
  ⟨⟨rfl, rfl, rfl, by decide, by decide⟩,
    (C12_open_success_postcondition demo_cfg demo_state_lagging demo_itf demo_edpt 23 rfl rfl
      rfl (by decide) (by decide)).1,
    (C12_open_success_postcondition demo_cfg demo_state_lagging demo_itf demo_edpt 23 rfl rfl
      rfl (by decide) (by decide)).2.2.1.1,
    (C12_open_success_postcondition demo_cfg demo_state_lagging demo_itf demo_edpt 23 rfl rfl
      rfl (by decide) (by decide)).2.2.2.2.2.2.2.1⟩


/-- C13 (the code at the failing input): with four slots, in the reachable state
where four packets have been drained and three more delivered, the cursors are
`wptr = 7` and `rptr = 4`, so `(wptr + 1) mod N = rptr mod N`, and
`buffer_full` returns false: it compares `(wptr + 1) % DAP_PACKET_COUNT` with
the unreduced `rptr`. -/
theorem C13_buffer_full_compares_unwrapped_read_cursor :
    ReachableBy demo_cfg (demo_trace_overrun.take 11) demo_state_overrun_full ∧
    demo_state_overrun_full.USBRequestBuffer.wptr = 7 ∧
    demo_state_overrun_full.USBRequestBuffer.rptr = 4 ∧
    (demo_state_overrun_full.USBRequestBuffer.wptr + 1) % demo_cfg.DAP_PACKET_COUNT =
      demo_state_overrun_full.USBRequestBuffer.rptr % demo_cfg.DAP_PACKET_COUNT ∧
    buffer_full demo_cfg demo_state_overrun_full.USBRequestBuffer = false :=
  ⟨⟨demo_open, demo_opened, rfl⟩, by decide, by decide, by decide, by decide⟩


/-- C14 (as stated, refuted): with four slots, after four requests have been
processed and no response collected, the response ring has `wptr = 4` and
`rptr = 0`, so `wptr mod N = rptr mod N`, yet `buffer_empty` returns false:
four responses are pending. -/
theorem C14_buffer_empty_compares_unwrapped_cursors :
    ReachableBy demo_cfg (demo_trace_responses.take 8) demo_state_four_responses ∧
    demo_state_four_responses.USBResponseBuffer.wptr = 4 ∧
    demo_state_four_responses.USBResponseBuffer.rptr = 0 ∧
    demo_state_four_responses.USBResponseBuffer.wptr % demo_cfg.DAP_PACKET_COUNT =
      demo_state_four_responses.USBResponseBuffer.rptr % demo_cfg.DAP_PACKET_COUNT ∧
    buffer_empty demo_state_four_responses.USBResponseBuffer = false :=
  ⟨⟨demo_open, demo_opened, rfl⟩, by decide, by decide, by decide, by decide⟩


/-- C14 (amended): `buffer_empty` returns true exactly when `wptr = rptr`.  This
implies `wptr mod N = rptr mod N`, and is equivalent to it whenever the
occupancy `wptr - rptr` is below `DAP_PACKET_COUNT`. -/
theorem C14_buffer_empty_iff_cursors_equal (cfg : Config) (buffer : buffer_t) :
    (buffer_empty buffer = true ↔ buffer.wptr = buffer.rptr) ∧
    (buffer_empty buffer = true →
      buffer.wptr % cfg.DAP_PACKET_COUNT = buffer.rptr % cfg.DAP_PACKET_COUNT) ∧
    (buffer.rptr ≤ buffer.wptr → buffer.wptr - buffer.rptr < cfg.DAP_PACKET_COUNT →
      (buffer_empty buffer = true ↔
        buffer.wptr % cfg.DAP_PACKET_COUNT = buffer.rptr % cfg.DAP_PACKET_COUNT)) := by
  have h1 : buffer_empty buffer = true ↔ buffer.wptr = buffer.rptr := by
    simp [buffer_empty]
  refine ⟨h1, ?_, ?_⟩
  · intro h
    rw [h1.mp h]
  · intro hle hlt
    rw [h1]
    constructor
    · intro h; rw [h]
    · intro h
      by_contra hne
      have hd : 0 < buffer.wptr - buffer.rptr := by omega
      have := mod_add_ne cfg.DAP_PACKET_COUNT buffer.rptr (buffer.wptr - buffer.rptr) hd hlt
      have e : buffer.rptr + (buffer.wptr - buffer.rptr) = buffer.wptr := by omega
      rw [e] at this
      exact this h


/-- C16: outbound completion step.  For every state, every IN endpoint address and
every `xferred_bytes <= DAP_PACKET_SIZE`, `dap_edpt_xfer_cb` returns true,
resumes the worker once and advances the response `rptr` by one (modulo
`2^32`); it leaves the response `wptr`, the stored responses, the response
`wasFull`, the whole request ring and the armed inbound transfers unchanged.
If `wasEmpty` was false, it arms exactly one transfer, on the same endpoint,
from the new read slot with length `(uint16_t)_resp_len`, and sets `wasEmpty`
to `new rptr + 1 == wptr`.  If `wasEmpty` was true, it arms nothing and
`wasEmpty` stays true. -/
theorem C16_outbound_completion_step (cfg : Config) (s : State) (ep_addr xferred_bytes : Nat)
    (hdir : tu_edpt_dir ep_addr = TUSB_DIR_IN)
    (hx : xferred_bytes ≤ cfg.DAP_PACKET_SIZE) :
    (dap_edpt_xfer_cb cfg s ep_addr xferred_bytes).1 = true ∧
    (dap_edpt_xfer_cb cfg s ep_addr xferred_bytes).2.resumes = s.resumes + 1 ∧
    (dap_edpt_xfer_cb cfg s ep_addr xferred_bytes).2.USBResponseBuffer.rptr =
      u32 (s.USBResponseBuffer.rptr + 1) ∧
    (dap_edpt_xfer_cb cfg s ep_addr xferred_bytes).2.USBResponseBuffer.wptr =
      s.USBResponseBuffer.wptr ∧
    (dap_edpt_xfer_cb cfg s ep_addr xferred_bytes).2.USBResponseBuffer.data =
      s.USBResponseBuffer.data ∧
    (dap_edpt_xfer_cb cfg s ep_addr xferred_bytes).2.USBResponseBuffer.wasFull =
      s.USBResponseBuffer.wasFull ∧
    (dap_edpt_xfer_cb cfg s ep_addr xferred_bytes).2.USBRequestBuffer = s.USBRequestBuffer ∧
    (dap_edpt_xfer_cb cfg s ep_addr xferred_bytes).2.out_xfers = s.out_xfers ∧
    (s.USBResponseBuffer.wasEmpty = false →
      (dap_edpt_xfer_cb cfg s ep_addr xferred_bytes).2.xfer_log =
        s.xfer_log ++
          [⟨ep_addr, Ring.response, u32 (s.USBResponseBuffer.rptr + 1) % cfg.DAP_PACKET_COUNT,
            u16 s._resp_len⟩] ∧
      (dap_edpt_xfer_cb cfg s ep_addr xferred_bytes).2.in_xfers =
        s.in_xfers ++
          [⟨ep_addr, Ring.response, u32 (s.USBResponseBuffer.rptr + 1) % cfg.DAP_PACKET_COUNT,
            u16 s._resp_len⟩] ∧
      (dap_edpt_xfer_cb cfg s ep_addr xferred_bytes).2.USBResponseBuffer.wasEmpty =
        (u32 (u32 (s.USBResponseBuffer.rptr + 1) + 1) == s.USBResponseBuffer.wptr)) ∧
    (s.USBResponseBuffer.wasEmpty = true →
      (dap_edpt_xfer_cb cfg s ep_addr xferred_bytes).2.xfer_log = s.xfer_log ∧
      (dap_edpt_xfer_cb cfg s ep_addr xferred_bytes).2.in_xfers = s.in_xfers ∧
      (dap_edpt_xfer_cb cfg s ep_addr xferred_bytes).2.USBResponseBuffer.wasEmpty = true) := by
  have hx2 : ¬ xferred_bytes > cfg.DAP_PACKET_SIZE := by omega
  cases hE : s.USBResponseBuffer.wasEmpty
  · simp only [dap_edpt_xfer_cb, hdir, if_true, hx2, if_false, hE, Bool.false_eq_true,
      not_false_eq_true, vTaskResume]
    rw [usbd_edpt_xfer_in _ _ _ _ _ hdir]
    simp [RD_IDX]
  · simp only [dap_edpt_xfer_cb, hdir, if_true, hx2, if_false, hE, not_true_eq_false,
      vTaskResume]
    simp [hE]


/-- C16 at `demo_state_lagging`: three responses are pending, the transfer of the
first one completes. -/
theorem C16_outbound_completion_step_witness :
    (tu_edpt_dir 133 = TUSB_DIR_IN ∧ 1 ≤ demo_cfg.DAP_PACKET_SIZE ∧
      demo_state_lagging.USBResponseBuffer.wasEmpty = false ∧
      demo_state_lagging.USBResponseBuffer.rptr = 0 ∧
      demo_state_lagging.USBResponseBuffer.wptr = 3) ∧
    (dap_edpt_xfer_cb demo_cfg demo_state_lagging 133 1).1 = true ∧
    (dap_edpt_xfer_cb demo_cfg demo_state_lagging 133 1).2.USBResponseBuffer.rptr = 1 ∧
    (dap_edpt_xfer_cb demo_cfg demo_state_lagging 133 1).2.xfer_log =
      demo_state_lagging.xfer_log ++ [⟨133, Ring.response, 1, 3⟩] ∧
    (dap_edpt_xfer_cb demo_cfg demo_state_lagging 133 1).2.USBResponseBuffer.wasEmpty = false :=
  ⟨⟨by decide, by decide, by decide, by decide, by decide⟩,
    (C16_outbound_completion_step demo_cfg demo_state_lagging 133 1 (by decide) (by decide)).1,
    (C16_outbound_completion_step demo_cfg demo_state_lagging 133 1 (by decide)
      (by decide)).2.2.1,
    ((C16_outbound_completion_step demo_cfg demo_state_lagging 133 1 (by decide)
      (by decide)).2.2.2.2.2.2.2.2.1 (by decide)).1,
    ((C16_outbound_completion_step demo_cfg demo_state_lagging 133 1 (by decide)
      (by decide)).2.2.2.2.2.2.2.2.1 (by decide)).2.2⟩


/-- C18 (the code at the failing input): with four slots, four packets are
delivered and drained (`rptr = wptr = 4`).  A queue-marked packet arrives in
slot 0; the worker rewrites its marker and suspends inside the scan with scan
cursor 5.  Three more packets arrive; `buffer_full` stays false, so the write
cursor reaches 8 and the next transfer is armed on slot 0, the read slot.  A
second queue-marked packet arrives there.  The resumed worker continues its
scan at cursor 5, finds no marker, and copies the read slot: the fifth packet
handed to the interpreter has the queue marker as its command byte. -/
theorem C18_interpreter_handed_queue_marker :
    ReachableBy demo_cfg (demo_trace_marker.take 13) demo_state_marker_armed ∧
    demo_state_marker_armed.pc = Pc.wait 5 ∧
    demo_state_marker_armed.USBRequestBuffer.rptr = 4 ∧
    demo_state_marker_armed.USBRequestBuffer.wptr = 8 ∧
    bytes (demo_state_marker_armed.USBRequestBuffer.data 0) 64 = demo_pkt2 127 10 ∧
    demo_state_marker_armed.out_xfers = [⟨4, Ring.request, 0, 64⟩] ∧
    ReachableBy demo_cfg demo_trace_marker demo_state_marker ∧
    demo_cfg.ID_DAP_QueueCommands = 126 ∧
    demo_state_marker.calls.map Prod.fst =
      [demo_pkt 1, demo_pkt 2, demo_pkt 3, demo_pkt 4, demo_pkt2 126 14] ∧
    (demo_state_marker.calls.map (fun c => c.1.getD 0 0)).getLast? =
      some demo_cfg.ID_DAP_QueueCommands :=
  ⟨⟨demo_open, demo_opened, rfl⟩, by decide, by decide, by decide, by decide, by decide,
    ⟨demo_open, demo_opened, rfl⟩, by decide, by decide, by decide⟩


/-- C19 (as stated, refuted): in the reachable state `demo_state_lagging` (cursors
3 and 3 on the request ring, write cursor 3 and `wasEmpty` false on the
response ring), `dap_edpt_open` with the matching signature and
`max_len = 22 < 23` returns 0 and has reset the cursors and flags of both
rings. -/
theorem C19_short_max_len_resets_rings :
    ReachableBy demo_cfg demo_trace_lagging demo_state_lagging ∧
    demo_state_lagging.USBRequestBuffer.wptr = 3 ∧
    demo_state_lagging.USBRequestBuffer.rptr = 3 ∧
    demo_state_lagging.USBResponseBuffer.wptr = 3 ∧
    demo_state_lagging.USBResponseBuffer.wasEmpty = false ∧
    (dap_edpt_open demo_cfg demo_state_lagging demo_itf demo_edpt 22).1 = 0 ∧
    (dap_edpt_open demo_cfg demo_state_lagging demo_itf demo_edpt 22).2.USBRequestBuffer.wptr
      = 0 ∧
    (dap_edpt_open demo_cfg demo_state_lagging demo_itf demo_edpt 22).2.USBRequestBuffer.rptr
      = 0 ∧
    (dap_edpt_open demo_cfg demo_state_lagging demo_itf demo_edpt 22).2.USBResponseBuffer.wptr
      = 0 ∧
    (dap_edpt_open demo_cfg demo_state_lagging demo_itf demo_edpt 22).2.USBResponseBuffer.wasEmpty
      = true :=
  ⟨⟨demo_open, demo_opened, rfl⟩, by decide, by decide, by decide, by decide, by decide,
    by decide, by decide, by decide, by decide⟩


/-- C19 (amended): whenever `dap_edpt_open` returns 0 (the driver length being
nonzero), the recorded endpoint addresses, the interface number, the opened
endpoints, the armed transfers and the stored packets are unchanged.  On a
signature mismatch the whole state is unchanged.  On a matching signature the
failure is `max_len < drv_len`, and the cursors and flags of both rings have
been reset to their initial values. -/
theorem C19_failed_open_effect (cfg : Config) (s : State)
    (itf_desc : tusb_desc_interface_t) (edpt : Nat → Nat) (max_len : Nat)
    (hfail : (dap_edpt_open cfg s itf_desc edpt max_len).1 = 0)
    (hpos : 0 < u16 (cfg.sizeof_tusb_desc_interface_t +
      itf_desc.bNumEndpoints * cfg.sizeof_tusb_desc_endpoint_t)) :
    (dap_edpt_open cfg s itf_desc edpt max_len).2._out_ep_addr = s._out_ep_addr ∧
    (dap_edpt_open cfg s itf_desc edpt max_len).2._in_ep_addr = s._in_ep_addr ∧
    (dap_edpt_open cfg s itf_desc edpt max_len).2.itf_num = s.itf_num ∧
    (dap_edpt_open cfg s itf_desc edpt max_len).2.opened = s.opened ∧
    (dap_edpt_open cfg s itf_desc edpt max_len).2.xfer_log = s.xfer_log ∧
    (dap_edpt_open cfg s itf_desc edpt max_len).2.out_xfers = s.out_xfers ∧
    (dap_edpt_open cfg s itf_desc edpt max_len).2.in_xfers = s.in_xfers ∧
    (dap_edpt_open cfg s itf_desc edpt max_len).2.USBRequestBuffer.data =
      s.USBRequestBuffer.data ∧
    (dap_edpt_open cfg s itf_desc edpt max_len).2.USBResponseBuffer.data =
      s.USBResponseBuffer.data ∧
    (¬ (cfg.TUSB_CLASS_VENDOR_SPECIFIC = itf_desc.bInterfaceClass ∧
        cfg.DAP_INTERFACE_SUBCLASS = itf_desc.bInterfaceSubClass ∧
        cfg.DAP_INTERFACE_PROTOCOL = itf_desc.bInterfaceProtocol) →
      (dap_edpt_open cfg s itf_desc edpt max_len).2 = s) ∧
    ((cfg.TUSB_CLASS_VENDOR_SPECIFIC = itf_desc.bInterfaceClass ∧
        cfg.DAP_INTERFACE_SUBCLASS = itf_desc.bInterfaceSubClass ∧
        cfg.DAP_INTERFACE_PROTOCOL = itf_desc.bInterfaceProtocol) →
      max_len < u16 (cfg.sizeof_tusb_desc_interface_t +
        itf_desc.bNumEndpoints * cfg.sizeof_tusb_desc_endpoint_t) ∧
      (dap_edpt_open cfg s itf_desc edpt max_len).2.USBRequestBuffer =
        { s.USBRequestBuffer with wptr := 0, rptr := 0, wasFull := false, wasEmpty := true } ∧
      (dap_edpt_open cfg s itf_desc edpt max_len).2.USBResponseBuffer =
        { s.USBResponseBuffer with wptr := 0, rptr := 0, wasFull := false, wasEmpty := true })
    := by
  by_cases hsig : cfg.TUSB_CLASS_VENDOR_SPECIFIC = itf_desc.bInterfaceClass ∧
        cfg.DAP_INTERFACE_SUBCLASS = itf_desc.bInterfaceSubClass ∧
        cfg.DAP_INTERFACE_PROTOCOL = itf_desc.bInterfaceProtocol
  · by_cases hm : max_len ≥ u16 (cfg.sizeof_tusb_desc_interface_t +
        itf_desc.bNumEndpoints * cfg.sizeof_tusb_desc_endpoint_t)
    · have hok : open_ok cfg itf_desc max_len := ⟨hsig.1, hsig.2.1, hsig.2.2, hm⟩
      rw [dap_edpt_open_ok cfg s itf_desc edpt max_len hok] at hfail
      simp only at hfail
      omega
    · simp only [dap_edpt_open, hsig, and_self, not_true_eq_false, if_false, hm,
        not_false_eq_true, if_true, true_implies, false_implies, and_true, true_and]
      omega
  · simp only [dap_edpt_open, hsig, not_false_eq_true, if_true, true_implies, false_implies,
      and_self]


/-- C19 (amended) at the failed re-open of `demo_state_lagging` with
`max_len = 22`. -/
theorem C19_failed_open_effect_witness :
    ((dap_edpt_open demo_cfg demo_state_lagging demo_itf demo_edpt 22).1 = 0 ∧
      0 < u16 (demo_cfg.sizeof_tusb_desc_interface_t +
        demo_itf.bNumEndpoints * demo_cfg.sizeof_tusb_desc_endpoint_t)) ∧
    (dap_edpt_open demo_cfg demo_state_lagging demo_itf demo_edpt 22).2.xfer_log =
      demo_state_lagging.xfer_log ∧
    (dap_edpt_open demo_cfg demo_state_lagging demo_itf demo_edpt 22).2.opened =
      demo_state_lagging.opened :=
  ⟨⟨by decide, by decide⟩,
    (C19_failed_open_effect demo_cfg demo_state_lagging demo_itf demo_edpt 22 (by decide)
      (by decide)).2.2.2.2.1,
    (C19_failed_open_effect demo_cfg demo_state_lagging demo_itf demo_edpt 22 (by decide)
      (by decide)).2.2.2.1⟩

end Debugprobe
